import Mathlib

/-!
Verification of the PROJ C API layer (`src/c_api.cpp`) and of the geodetic
object model, codec and coordinate-operation resolver it exposes.

The C API wrapper code (PJ_OBJ, PJ_OBJ_LIST, the `proj_*` entry points) is
embedded directly from `src/c_api.cpp`.  The underlying engines
(`isEquivalentTo`, `identify`, `createOperations`, the WKT codec and
`guessDialect`) live in repository files that are not part of the given
sources; those are modelled from the specification, as marked in the
doc comments below.
-/

/-! ## Geodetic object model

Modelled from the spec: the typed, immutable geodetic entities of the data
model (the C++ classes behind `IdentifiedObjectNNPtr` are not in the given
sources; only the C API wrapper is).  All numeric content uses `ℚ`.
-/

/-- Modelled from the spec: unit category,
`category ∈ {unknown, none, angular, linear, scale, time, parametric}`. -/
inductive UnitCategory where
  | unknown
  | none
  | angular
  | linear
  | scale
  | time
  | parametric
deriving DecidableEq, Repr

/-- Modelled from the spec: a `(name, conversion-factor-to-SI, category)`
triple.  Two units are equal iff conversion factor and category match; the
name is informational. -/
structure UnitOfMeasure where
  name : String
  factor : ℚ
  category : UnitCategory
deriving DecidableEq, Repr

/-- Modelled from the spec: an `(authority-name, code)` identifier. -/
structure Identifier where
  authority : String
  code : String
deriving DecidableEq, Repr

/-- Modelled from the spec: base attributes shared by every entity — a
primary name, zero or more identifiers, a deprecated flag, optional
remarks. -/
structure Metadata where
  name : String
  identifiers : List Identifier
  deprecated : Bool
  remarks : Option String
deriving DecidableEq, Repr

/-- Modelled from the spec: ellipsoid — semi-major axis and either an
inverse flattening (flattened) or none (sphere). -/
structure Ellipsoid where
  meta : Metadata
  semiMajorAxis : ℚ
  unit : UnitOfMeasure
  inverseFlattening : Option ℚ
deriving DecidableEq, Repr

/-- Modelled from the spec: prime meridian — a longitude offset plus an
angular unit. -/
structure PrimeMeridian where
  meta : Metadata
  longitude : ℚ
  unit : UnitOfMeasure
deriving DecidableEq, Repr

/-- Modelled from the spec: datum variants — geodetic reference frame
(ellipsoid + prime meridian, optionally time-dependent via a frame epoch),
vertical reference frame (optionally dynamic), engineering datum. -/
inductive Datum where
  | geodeticFrame (meta : Metadata) (ellipsoid : Ellipsoid)
      (primeMeridian : PrimeMeridian) (frameEpoch : Option ℚ)
  | verticalFrame (meta : Metadata) (frameEpoch : Option ℚ)
  | engineeringDatum (meta : Metadata)
deriving DecidableEq, Repr

/-- Modelled from the spec: a datum ensemble groups multiple datums with an
accuracy figure. -/
structure DatumEnsemble where
  meta : Metadata
  members : List Datum
  accuracy : ℚ
deriving DecidableEq, Repr

/-- Modelled from the spec: a GeodeticCRS always has either a datum or a
datum ensemble, never neither. -/
inductive DatumOrEnsemble where
  | datum (d : Datum)
  | ensemble (e : DatumEnsemble)
deriving DecidableEq, Repr

/-- Modelled from the spec: axis direction enumeration. -/
inductive AxisDirection where
  | north
  | south
  | east
  | west
  | up
  | down
  | other
deriving DecidableEq, Repr

/-- Modelled from the spec: an axis descriptor — name, abbreviation,
direction, unit. -/
structure Axis where
  name : String
  abbreviation : String
  direction : AxisDirection
  unit : UnitOfMeasure
deriving DecidableEq, Repr

/-- Modelled from the spec: coordinate-system variants. -/
inductive CSKind where
  | cartesian
  | ellipsoidal
  | vertical
  | spherical
  | ordinal
  | parametric
  | dateTimeTemporal
  | temporalCount
  | temporalMeasure
deriving DecidableEq, Repr

/-- Modelled from the spec: a coordinate system is a variant plus an
ordered sequence of axis descriptors. -/
structure CoordinateSystem where
  kind : CSKind
  axes : List Axis
deriving DecidableEq, Repr

/-- Modelled from the spec: a parameter value is numeric+unit, or a
filename, or a string. -/
inductive ParamValue where
  | measure (value : ℚ) (unit : UnitOfMeasure)
  | filename (path : String)
  | string (s : String)
deriving DecidableEq, Repr

/-- Modelled from the spec: an operation parameter — formal name plus
value. -/
structure OperationParameter where
  name : String
  value : ParamValue
deriving DecidableEq, Repr

/-- Modelled from the spec: the data of a single operation — a method
identifier plus ordered parameter values. -/
structure SingleOpData where
  meta : Metadata
  methodName : String
  parameters : List OperationParameter
deriving DecidableEq, Repr

/-- Modelled from the spec: coordinate-operation variants — Conversion
(no accuracy), Transformation (with accuracy claims, each a textual value),
ConcatenatedOperation (ordered steps plus accuracy claims). -/
inductive CoordinateOperation where
  | conversion (data : SingleOpData)
  | transformation (data : SingleOpData) (accuracies : List String)
  | concatenated (meta : Metadata) (steps : List SingleOpData)
      (accuracies : List String)
deriving DecidableEq, Repr

/-- From `CoordinateOperation::coordinateOperationAccuracies()` as used at
`c_api.cpp:6050`: the list of accuracy claims of an operation (empty for a
Conversion). -/
def CoordinateOperation.coordinateOperationAccuracies :
    CoordinateOperation → List String
  | .conversion _ => []
  | .transformation _ accs => accs
  | .concatenated _ _ accs => accs

mutual

/-- Modelled from the spec: the CRS variants.  A compound CRS holds an
ordered list of component CRS (represented by the mutual type `CRSList`);
a bound CRS holds a base CRS, a hub CRS and a transformation. -/
inductive CRS where
  | geodetic (meta : Metadata) (datum : DatumOrEnsemble)
      (cs : CoordinateSystem) : CRS
  | vertical (meta : Metadata) (datum : DatumOrEnsemble)
      (cs : CoordinateSystem) : CRS
  | projected (meta : Metadata) (base : CRS) (conversion : SingleOpData)
      (cs : CoordinateSystem) : CRS
  | compound (meta : Metadata) (components : CRSList) : CRS
  | bound (meta : Metadata) (base : CRS) (hub : CRS)
      (transformation : SingleOpData) : CRS
  | engineering (meta : Metadata) (datum : Datum)
      (cs : CoordinateSystem) : CRS
  | temporal (meta : Metadata) (cs : CoordinateSystem) : CRS

/-- Ordered list of component CRS of a compound CRS. -/
inductive CRSList where
  | nil : CRSList
  | cons (head : CRS) (tail : CRSList) : CRSList

end

/-- The classes wrapped by `PJ_OBJ` (`IdentifiedObjectNNPtr` at
`c_api.cpp:97`): an ellipsoid, prime meridian, datum, CRS or coordinate
operation. -/
inductive IdentifiedObject where
  | crs (c : CRS)
  | operation (op : CoordinateOperation)
  | ellipsoid (e : Ellipsoid)
  | primeMeridian (p : PrimeMeridian)
  | datum (d : Datum)

/-- From `c_api.cpp:95-111`: the opaque `PJ_OBJ` wrapper — the wrapped
immutable object plus mutable cached results (`lastWKT`,
`gridsNeededAsked`, `gridsNeeded`). -/
structure GridDescription where
  shortName : String
  fullName : String
  packageName : String
  url : String
  directDownload : Bool
  openLicense : Bool
  available : Bool
deriving DecidableEq, Repr

/-- From `c_api.cpp:95-111`: `struct PJ_OBJ` with its cached results. -/
structure PJ_OBJ where
  obj : IdentifiedObject
  lastWKT : String := ""
  gridsNeededAsked : Bool := false
  gridsNeeded : List GridDescription := []

/-! ## Equivalence (`isEquivalentTo`)

Modelled from the spec: `isEquivalentTo(other, criterion)` with criterion
∈ {Strict (identical structure and metadata), Equivalent (identical
structure and numeric content, metadata ignored),
EquivalentExceptAxisOrderForGeographicCRS}.  Equivalence is structural
recursion, with the geographic-axis-order exception applied only at
GeographicCRS nodes.  (The C++ implementation behind
`proj_obj_is_equivalent_to` at `c_api.cpp:983` is not in the given
sources.) -/

/-- From `IComparable::Criterion` as mirrored at `c_api.cpp:961-971`. -/
inductive Criterion where
  | strict
  | equivalent
  | equivalentExceptAxisOrderGeogCRS
deriving DecidableEq, Repr

/-- Metadata is compared only under the Strict criterion. -/
def metaEquiv (crit : Criterion) (a b : Metadata) : Bool :=
  match crit with
  | .strict => decide (a = b)
  | _ => true

/-- Units: under Strict full equality, otherwise conversion factor and
category only (name informational). -/
def unitEquiv (crit : Criterion) (a b : UnitOfMeasure) : Bool :=
  match crit with
  | .strict => decide (a = b)
  | _ => decide (a.factor = b.factor) && decide (a.category = b.category)

/-- Generic elementwise comparison of two lists. -/
def allEquiv (f : α → α → Bool) : List α → List α → Bool
  | [], [] => true
  | x :: xs, y :: ys => f x y && allEquiv f xs ys
  | _, _ => false

def ellipsoidEquiv (crit : Criterion) (a b : Ellipsoid) : Bool :=
  metaEquiv crit a.meta b.meta && decide (a.semiMajorAxis = b.semiMajorAxis)
    && unitEquiv crit a.unit b.unit
    && decide (a.inverseFlattening = b.inverseFlattening)

def primeMeridianEquiv (crit : Criterion) (a b : PrimeMeridian) : Bool :=
  metaEquiv crit a.meta b.meta && decide (a.longitude = b.longitude)
    && unitEquiv crit a.unit b.unit

def datumEquiv (crit : Criterion) (a b : Datum) : Bool :=
  match a, b with
  | .geodeticFrame m₁ e₁ p₁ f₁, .geodeticFrame m₂ e₂ p₂ f₂ =>
      metaEquiv crit m₁ m₂ && ellipsoidEquiv crit e₁ e₂
        && primeMeridianEquiv crit p₁ p₂ && decide (f₁ = f₂)
  | .verticalFrame m₁ f₁, .verticalFrame m₂ f₂ =>
      metaEquiv crit m₁ m₂ && decide (f₁ = f₂)
  | .engineeringDatum m₁, .engineeringDatum m₂ => metaEquiv crit m₁ m₂
  | _, _ => false

def datumEnsembleEquiv (crit : Criterion) (a b : DatumEnsemble) : Bool :=
  metaEquiv crit a.meta b.meta && allEquiv (datumEquiv crit) a.members b.members
    && decide (a.accuracy = b.accuracy)

def datumOrEnsembleEquiv (crit : Criterion) (a b : DatumOrEnsemble) : Bool :=
  match a, b with
  | .datum d₁, .datum d₂ => datumEquiv crit d₁ d₂
  | .ensemble e₁, .ensemble e₂ => datumEnsembleEquiv crit e₁ e₂
  | _, _ => false

/-- Axes: under Strict full equality, otherwise direction and unit
(name and abbreviation are metadata-like). -/
def axisEquiv (crit : Criterion) (a b : Axis) : Bool :=
  match crit with
  | .strict => decide (a = b)
  | _ => decide (a.direction = b.direction) && unitEquiv crit a.unit b.unit

def csEquiv (crit : Criterion) (a b : CoordinateSystem) : Bool :=
  decide (a.kind = b.kind) && allEquiv (axisEquiv crit) a.axes b.axes

/-- Swap of the first two axes, the geographic axis-order exception. -/
def swapFirstTwo : List Axis → List Axis
  | a :: b :: rest => b :: a :: rest
  | l => l

def csSwapFirstTwo (cs : CoordinateSystem) : CoordinateSystem :=
  { cs with axes := swapFirstTwo cs.axes }

def paramValueEquiv (crit : Criterion) (a b : ParamValue) : Bool :=
  match a, b with
  | .measure v₁ u₁, .measure v₂ u₂ =>
      decide (v₁ = v₂) && unitEquiv crit u₁ u₂
  | .filename p₁, .filename p₂ => decide (p₁ = p₂)
  | .string s₁, .string s₂ => decide (s₁ = s₂)
  | _, _ => false

def paramEquiv (crit : Criterion) (a b : OperationParameter) : Bool :=
  decide (a.name = b.name) && paramValueEquiv crit a.value b.value

def singleOpEquiv (crit : Criterion) (a b : SingleOpData) : Bool :=
  metaEquiv crit a.meta b.meta && decide (a.methodName = b.methodName)
    && allEquiv (paramEquiv crit) a.parameters b.parameters

def coordOpEquiv (crit : Criterion) (a b : CoordinateOperation) : Bool :=
  match a, b with
  | .conversion d₁, .conversion d₂ => singleOpEquiv crit d₁ d₂
  | .transformation d₁ a₁, .transformation d₂ a₂ =>
      singleOpEquiv crit d₁ d₂ && decide (a₁ = a₂)
  | .concatenated m₁ s₁ a₁, .concatenated m₂ s₂ a₂ =>
      metaEquiv crit m₁ m₂ && allEquiv (singleOpEquiv crit) s₁ s₂
        && decide (a₁ = a₂)
  | _, _ => false

mutual

/-- Modelled from the spec: structural equivalence of CRS — composite
entities are equivalent iff all corresponding components are equivalent
under the same criterion, with the geographic-axis-order exception applied
only at GeographicCRS nodes (geodetic CRS with an ellipsoidal coordinate
system). -/
def crsEquiv (crit : Criterion) : CRS → CRS → Bool
  | .geodetic m₁ d₁ cs₁, .geodetic m₂ d₂ cs₂ =>
      metaEquiv crit m₁ m₂ && datumOrEnsembleEquiv crit d₁ d₂ &&
        (csEquiv crit cs₁ cs₂ ||
          (decide (crit = .equivalentExceptAxisOrderGeogCRS)
            && decide (cs₁.kind = .ellipsoidal)
            && csEquiv crit cs₁ (csSwapFirstTwo cs₂)))
  | .vertical m₁ d₁ cs₁, .vertical m₂ d₂ cs₂ =>
      metaEquiv crit m₁ m₂ && datumOrEnsembleEquiv crit d₁ d₂
        && csEquiv crit cs₁ cs₂
  | .projected m₁ b₁ c₁ cs₁, .projected m₂ b₂ c₂ cs₂ =>
      metaEquiv crit m₁ m₂ && crsEquiv crit b₁ b₂
        && singleOpEquiv crit c₁ c₂ && csEquiv crit cs₁ cs₂
  | .compound m₁ c₁, .compound m₂ c₂ =>
      metaEquiv crit m₁ m₂ && crsListEquiv crit c₁ c₂
  | .bound m₁ b₁ h₁ t₁, .bound m₂ b₂ h₂ t₂ =>
      metaEquiv crit m₁ m₂ && crsEquiv crit b₁ b₂ && crsEquiv crit h₁ h₂
        && singleOpEquiv crit t₁ t₂
  | .engineering m₁ d₁ cs₁, .engineering m₂ d₂ cs₂ =>
      metaEquiv crit m₁ m₂ && datumEquiv crit d₁ d₂ && csEquiv crit cs₁ cs₂
  | .temporal m₁ cs₁, .temporal m₂ cs₂ =>
      metaEquiv crit m₁ m₂ && csEquiv crit cs₁ cs₂
  | _, _ => false

def crsListEquiv (crit : Criterion) : CRSList → CRSList → Bool
  | .nil, .nil => true
  | .cons x xs, .cons y ys => crsEquiv crit x y && crsListEquiv crit xs ys
  | _, _ => false

end

/-- Modelled from the spec: `isEquivalentTo` on any identified object
(dispatch over the variant). -/
def objEquiv (crit : Criterion) (a b : IdentifiedObject) : Bool :=
  match a, b with
  | .crs c₁, .crs c₂ => crsEquiv crit c₁ c₂
  | .operation o₁, .operation o₂ => coordOpEquiv crit o₁ o₂
  | .ellipsoid e₁, .ellipsoid e₂ => ellipsoidEquiv crit e₁ e₂
  | .primeMeridian p₁, .primeMeridian p₂ => primeMeridianEquiv crit p₁ p₂
  | .datum d₁, .datum d₂ => datumEquiv crit d₁ d₂
  | _, _ => false

/-- From `c_api.cpp:955-984` (`proj_obj_is_equivalent_to`): forwards to
`isEquivalentTo` on the wrapped objects with the matching criterion. -/
def proj_obj_is_equivalent_to (obj other : PJ_OBJ)
    (criterion : Criterion) : Bool :=
  objEquiv criterion obj.obj other.obj

/-! ## Name access and alteration -/

/-- The metadata of a CRS node. -/
def CRS.meta : CRS → Metadata
  | .geodetic m _ _ => m
  | .vertical m _ _ => m
  | .projected m _ _ _ => m
  | .compound m _ => m
  | .bound m _ _ _ => m
  | .engineering m _ _ => m
  | .temporal m _ => m

/-- The primary name of a CRS. -/
def CRS.name (c : CRS) : String := c.meta.name

/-- Modelled from the spec: `alterName` — any alteration operation returns
a new entity rather than mutating the original; here the primary name of
the top-level entity is replaced.  (`CRS::alterName` is called at
`c_api.cpp:2407` but its implementation is not in the given sources.) -/
def CRS.alterName : CRS → String → CRS
  | .geodetic m d cs, n => .geodetic { m with name := n } d cs
  | .vertical m d cs, n => .vertical { m with name := n } d cs
  | .projected m b c cs, n => .projected { m with name := n } b c cs
  | .compound m c, n => .compound { m with name := n } c
  | .bound m b h t, n => .bound { m with name := n } b h t
  | .engineering m d cs, n => .engineering { m with name := n } d cs
  | .temporal m cs, n => .temporal { m with name := n } cs

/-- From `c_api.cpp:114-116` (`PJ_OBJ::create`): wrap an object with fresh
caches. -/
def PJ_OBJ.create (objIn : IdentifiedObject) : PJ_OBJ :=
  { obj := objIn }

/-- From `c_api.cpp:2399-2412` (`proj_obj_alter_name`): only implemented on
CRS objects (`nullptr`, modelled as `none`, otherwise); returns a copy of
the object with its name changed. -/
def proj_obj_alter_name (obj : PJ_OBJ) (name : String) : Option PJ_OBJ :=
  match obj.obj with
  | .crs crs => some (PJ_OBJ.create (.crs (crs.alterName name)))
  | _ => none

/-! ## CRS identification

Modelled from the spec: `identify(candidateCRS, authorityFilter)` returns
a ranked list of (reference CRS, confidence 0-100).  `CRS::identify` is
called at `c_api.cpp:1801` but its implementation is not in the given
sources; the candidate pool drawn from the authority factory is modelled
as an explicit list of reference CRS. -/

/-- Name comparison outcome: exactly equal, similar (modelled as equal up
to letter case), or unrelated. -/
inductive NameSimilarity where
  | exact
  | similar
  | unrelated
deriving DecidableEq, Repr

/-- ASCII upper-casing (character by character). -/
def asciiUpper (s : String) : String := String.mk (s.data.map Char.toUpper)

/-- Modelled from the spec: name similarity used by identification. -/
def nameSimilarity (a b : String) : NameSimilarity :=
  if a = b then .exact
  else if asciiUpper a = asciiUpper b then .similar
  else .unrelated

/-- Modelled from the spec: confidence assignment — 100 when names match
exactly and the CRS are equivalent; 90 when equivalent but names differ;
70 when equivalent but names are unrelated; 25 when not equivalent but
names are similar; `none` (excluded) for non-equivalent dissimilar
pairs. -/
def identifyConfidence (equivalent : Bool) (sim : NameSimilarity) :
    Option ℕ :=
  match equivalent, sim with
  | true, .exact => some 100
  | true, .similar => some 90
  | true, .unrelated => some 70
  | false, .exact => some 25
  | false, .similar => some 25
  | false, .unrelated => none

/-- Modelled from the spec: identification of a CRS against a pool of
reference CRS.  A perfect match (equivalent and exactly matching name)
short-circuits to a single result of confidence 100; otherwise every
candidate scoring above 0 is returned with its confidence. -/
def identify (crs : CRS) (pool : List CRS) : List (CRS × ℕ) :=
  match pool.find? (fun r =>
      crsEquiv .equivalent crs r && decide (crs.name = r.name)) with
  | some r => [(r, 100)]
  | none =>
      pool.filterMap fun r =>
        (identifyConfidence (crsEquiv .equivalent crs r)
          (nameSimilarity crs.name r.name)).map (fun conf => (r, conf))

/-- From `c_api.cpp:1782-1824` (`proj_obj_identify`): fails (returns
`none`) when the wrapped object is not a CRS, otherwise returns the
matches of `identify` with their confidences. -/
def proj_obj_identify (obj : PJ_OBJ) (pool : List CRS) :
    Option (List (CRS × ℕ)) :=
  match obj.obj with
  | .crs crs => some (identify crs pool)
  | _ => none

/-! ## Coordinate operation resolver

Modelled from the spec: `CoordinateOperationFactory::createOperations` is
called at `c_api.cpp:5970` but its implementation is not in the given
sources.  A candidate operation is abstracted by the quantities the
filtering and ranking steps consume: the area of overlap between the
operation validity and the area of interest (`none` representing
unbounded/whole-world validity, treated as maximal), the accuracy (`none`
representing unknown accuracy) and the stable catalog position. -/

/-- A candidate coordinate operation as seen by the resolver. -/
structure OpCandidate where
  overlap : Option ℚ
  accuracy : Option ℚ
  catalogIndex : ℕ
deriving DecidableEq, Repr

/-- Area key: unbounded/whole-world validity (`none`) is maximal. -/
def areaVal : Option ℚ → WithTop ℚ
  | none => ⊤
  | some q => (q : WithTop ℚ)

/-- Operations with unknown accuracy rank after every operation of known
accuracy, regardless of their area. -/
def accRank (op : OpCandidate) : ℕ :=
  if op.accuracy.isSome then 0 else 1

/-- Accuracy key: unknown accuracy is maximal. -/
def accVal (op : OpCandidate) : WithTop ℚ :=
  match op.accuracy with
  | none => ⊤
  | some q => (q : WithTop ℚ)

/-- Modelled from the spec: the ranking order of `createOperations` —
operations of unknown accuracy after all operations of known accuracy
regardless of area; then by descending area of overlap (unbounded treated
maximal); then by ascending numeric accuracy; then by stable catalog
order. -/
def opLE (a b : OpCandidate) : Prop :=
  accRank a < accRank b ∨
    (accRank a = accRank b ∧
      (areaVal b.overlap < areaVal a.overlap ∨
        (areaVal a.overlap = areaVal b.overlap ∧
          (accVal a < accVal b ∨
            (accVal a = accVal b ∧ a.catalogIndex ≤ b.catalogIndex)))))

instance : DecidableRel opLE := fun a b => by
  unfold opLE
  exact inferInstance

instance : IsTotal OpCandidate opLE := by
  refine ⟨fun a b => ?_⟩
  rcases lt_trichotomy (accRank a) (accRank b) with h | h | h
  · exact Or.inl (Or.inl h)
  · rcases lt_trichotomy (areaVal a.overlap) (areaVal b.overlap) with h₂ | h₂ | h₂
    · exact Or.inr (Or.inr ⟨h.symm, Or.inl h₂⟩)
    · rcases lt_trichotomy (accVal a) (accVal b) with h₃ | h₃ | h₃
      · exact Or.inl (Or.inr ⟨h, Or.inr ⟨h₂, Or.inl h₃⟩⟩)
      · rcases le_total a.catalogIndex b.catalogIndex with h₄ | h₄
        · exact Or.inl (Or.inr ⟨h, Or.inr ⟨h₂, Or.inr ⟨h₃, h₄⟩⟩⟩)
        · exact Or.inr (Or.inr ⟨h.symm, Or.inr ⟨h₂.symm, Or.inr ⟨h₃.symm, h₄⟩⟩⟩)
      · exact Or.inr (Or.inr ⟨h.symm, Or.inr ⟨h₂.symm, Or.inl h₃⟩⟩)
    · exact Or.inl (Or.inr ⟨h, Or.inl h₂⟩)
  · exact Or.inr (Or.inl h)

instance : IsTrans OpCandidate opLE := by
  refine ⟨fun a b c hab hbc => ?_⟩
  rcases hab with h₁ | ⟨e₁, h₁⟩ <;> rcases hbc with h₂ | ⟨e₂, h₂⟩
  · exact Or.inl (h₁.trans h₂)
  · exact Or.inl (lt_of_lt_of_eq h₁ e₂)
  · exact Or.inl (lt_of_eq_of_lt e₁ h₂)
  · refine Or.inr ⟨e₁.trans e₂, ?_⟩
    rcases h₁ with g₁ | ⟨f₁, h₁⟩ <;> rcases h₂ with g₂ | ⟨f₂, h₂⟩
    · exact Or.inl (g₂.trans g₁)
    · exact Or.inl (lt_of_eq_of_lt f₂.symm g₁)
    · exact Or.inl (lt_of_lt_of_eq g₂ f₁.symm)
    · refine Or.inr ⟨f₁.trans f₂, ?_⟩
      rcases h₁ with k₁ | ⟨ke₁, i₁⟩ <;> rcases h₂ with k₂ | ⟨ke₂, i₂⟩
      · exact Or.inl (k₁.trans k₂)
      · exact Or.inl (lt_of_lt_of_eq k₁ ke₂)
      · exact Or.inl (lt_of_eq_of_lt ke₁ k₂)
      · exact Or.inr ⟨ke₁.trans ke₂, i₁.trans i₂⟩

/-- Modelled from the spec: the desired-accuracy filter — with threshold 0
no filter is applied; otherwise operations whose accuracy is strictly
worse (larger) than the threshold are discarded; operations with unknown
accuracy are never discarded by this rule. -/
def filterByAccuracy (desiredAccuracy : ℚ) (ops : List OpCandidate) :
    List OpCandidate :=
  if desiredAccuracy = 0 then ops
  else
    ops.filter fun op =>
      match op.accuracy with
      | none => true
      | some a => decide (a ≤ desiredAccuracy)

/-- From `CoordinateOperationContext` as configured through
`c_api.cpp:5679-5927`: the search configuration — desired accuracy
threshold (0 disables the filter), the configured spatial criterion
(abstracted as a predicate on candidates), the intermediate-pivot-CRS
usage flag and the explicit pivot allow-list. -/
structure CoordinateOperationContext where
  desiredAccuracy : ℚ := 0
  spatialOk : OpCandidate → Bool := fun _ => true
  allowUseIntermediateCRS : Bool := true
  intermediateCRS : List (String × String) := []

/-- From `CoordinateOperationContext::setDesiredAccuracy` as called at
`c_api.cpp:5685`. -/
def CoordinateOperationContext.setDesiredAccuracy
    (ctx : CoordinateOperationContext) (accuracy : ℚ) :
    CoordinateOperationContext :=
  { ctx with desiredAccuracy := accuracy }

/-- From `c_api.cpp:5679-5689`
(`proj_operation_factory_context_set_desired_accuracy`): accuracy in
meter, or 0 to disable the filter. -/
def proj_operation_factory_context_set_desired_accuracy
    (factory_ctx : CoordinateOperationContext) (accuracy : ℚ) :
    CoordinateOperationContext :=
  factory_ctx.setDesiredAccuracy accuracy

/-- From `c_api.cpp:5890-5899`
(`proj_operation_factory_context_set_allow_use_intermediate_crs`). -/
def proj_operation_factory_context_set_allow_use_intermediate_crs
    (factory_ctx : CoordinateOperationContext) (allow : Bool) :
    CoordinateOperationContext :=
  { factory_ctx with allowUseIntermediateCRS := allow }

/-- Modelled from the spec: the catalog-backed candidate sources — the
cataloged operations whose source/target pair matches the query (or its
reverse, with implicit inversion) and the one-hop pivot concatenations. -/
structure OperationCatalog where
  directOps : CRS → CRS → List OpCandidate
  pivotOps : CRS → CRS → List OpCandidate

/-- Modelled from the spec: the hard-coded identity conversion between
equivalent CRS. -/
def identityOpCandidate : OpCandidate :=
  { overlap := none, accuracy := some 0, catalogIndex := 0 }

/-- Modelled from the spec: the hard-coded unit/axis-order-only conversion
between CRS differing only in unit or axis order. -/
def axisUnitOpCandidate : OpCandidate :=
  { overlap := none, accuracy := some 0, catalogIndex := 0 }

/-- Modelled from the spec: conversions derivable purely from CRS
structure — an identity operation when the two CRS are equivalent, a
unit/axis-order-only conversion when they differ only in axis order. -/
def structuralOps (source target : CRS) : List OpCandidate :=
  if crsEquiv .equivalent source target then [identityOpCandidate]
  else if crsEquiv .equivalentExceptAxisOrderGeogCRS source target then
    [axisUnitOpCandidate]
  else []

/-- Modelled from the spec: candidate discovery and spatial filtering —
direct candidates (structural plus cataloged), pivot candidates only if
pivoting is enabled and there is no direct candidate (or the allow-list is
non-empty), then the configured spatial criterion. -/
def candidatePool (cat : OperationCatalog) (ctx : CoordinateOperationContext)
    (source target : CRS) : List OpCandidate :=
  let direct := structuralOps source target ++ cat.directOps source target
  let withPivots :=
    if ctx.allowUseIntermediateCRS
        && (direct.isEmpty || !ctx.intermediateCRS.isEmpty) then
      direct ++ cat.pivotOps source target
    else direct
  withPivots.filter ctx.spatialOk

/-- Modelled from the spec: `createOperations` — discovery, filtering by
the desired-accuracy threshold, and ranking by the `opLE` order. -/
def createOperations (cat : OperationCatalog) (source target : CRS)
    (ctx : CoordinateOperationContext) : List OpCandidate :=
  List.insertionSort opLE
    (filterByAccuracy ctx.desiredAccuracy (candidatePool cat ctx source target))

/-- From `c_api.cpp:5948-5981` (`proj_obj_create_operations`): fails
(returns `none`, the `nullptr` result) when either argument is not a CRS;
otherwise returns the ranked result set (possibly empty — not an
error). -/
def proj_obj_create_operations (source_crs target_crs : PJ_OBJ)
    (cat : OperationCatalog) (operationContext : CoordinateOperationContext) :
    Option (List OpCandidate) :=
  match source_crs.obj, target_crs.obj with
  | .crs source, .crs target =>
      some (createOperations cat source target operationContext)
  | _, _ => none

/-! ## Text-format codec

Modelled from the spec: the codec parses and serializes the object model
in two textual conventions — the nested-parenthesis descriptive grammar in
its modern multi-line generations (called `wkt2` below) and the legacy
vendor dialect (`wkt1`).  The WKT implementation behind
`proj_obj_as_wkt` (`c_api.cpp:1089`) and `proj_obj_create_from_wkt`
(`c_api.cpp:408`) is not in the given sources.  The nested-parenthesis
text is modelled by its tree of keywords, strings and numbers. -/

mutual

/-- A node of the nested-parenthesis grammar: a quoted string, a number,
or a keyword with a parenthesised argument list. -/
inductive WKT where
  | str (s : String) : WKT
  | num (q : ℚ) : WKT
  | node (keyword : String) (args : WKTList) : WKT

/-- Argument list of a WKT node. -/
inductive WKTList where
  | nil : WKTList
  | cons (head : WKT) (tail : WKTList) : WKTList

end

/-- The two modelled output conventions: the modern multi-line grammar and
the legacy vendor dialect. -/
inductive Convention where
  | wkt2
  | wkt1
deriving DecidableEq, Repr

def wktOfList (f : α → WKT) : List α → WKTList
  | [] => .nil
  | x :: xs => .cons (f x) (wktOfList f xs)

def listOfWKT (g : WKT → Option α) : WKTList → Option (List α)
  | .nil => some []
  | .cons w tl =>
      match g w, listOfWKT g tl with
      | some a, some as => some (a :: as)
      | _, _ => none

def categoryTag : UnitCategory → String
  | .unknown => "UNKNOWN"
  | .none => "NONE"
  | .angular => "ANGULAR"
  | .linear => "LINEAR"
  | .scale => "SCALE"
  | .time => "TEMPORAL"
  | .parametric => "PARAMETRIC"

def categoryOfTag (s : String) : Option UnitCategory :=
  if s = "UNKNOWN" then some .unknown
  else if s = "NONE" then some .none
  else if s = "ANGULAR" then some .angular
  else if s = "LINEAR" then some .linear
  else if s = "SCALE" then some .scale
  else if s = "TEMPORAL" then some .time
  else if s = "PARAMETRIC" then some .parametric
  else none

def unitToWKT (u : UnitOfMeasure) : WKT :=
  .node "UNIT" (.cons (.str u.name) (.cons (.num u.factor)
    (.cons (.str (categoryTag u.category)) .nil)))

def unitOfWKT : WKT → Option UnitOfMeasure
  | .node "UNIT" (.cons (.str n) (.cons (.num f) (.cons (.str c) .nil))) =>
      (categoryOfTag c).map fun cat => ⟨n, f, cat⟩
  | _ => none

def idToWKT (i : Identifier) : WKT :=
  .node "ID" (.cons (.str i.authority) (.cons (.str i.code) .nil))

def idOfWKT : WKT → Option Identifier
  | .node "ID" (.cons (.str a) (.cons (.str c) .nil)) => some ⟨a, c⟩
  | _ => none

def boolToWKT (b : Bool) : WKT := .num (if b then 1 else 0)

def boolOfWKT : WKT → Option Bool
  | .num q => if q = 1 then some true else if q = 0 then some false else none
  | _ => none

def optStrTail : Option String → WKTList
  | none => .nil
  | some r => .cons (.str r) .nil

def optStrOfTail : WKTList → Option (Option String)
  | .nil => some none
  | .cons (.str r) .nil => some (some r)
  | _ => none

def optNumTail : Option ℚ → WKTList
  | none => .nil
  | some q => .cons (.num q) .nil

def optNumOfTail : WKTList → Option (Option ℚ)
  | .nil => some none
  | .cons (.num q) .nil => some (some q)
  | _ => none

/-- The full metadata of an object, emitted by the modern grammar only. -/
def metaToWKT (m : Metadata) : WKT :=
  .node "METADATA" (.cons (.str m.name)
    (.cons (.node "IDS" (wktOfList idToWKT m.identifiers))
      (.cons (boolToWKT m.deprecated) (optStrTail m.remarks))))

def metaOfWKT : WKT → Option Metadata
  | .node "METADATA" (.cons (.str n)
      (.cons (.node "IDS" ids) (.cons d tail))) =>
      match listOfWKT idOfWKT ids, boolOfWKT d, optStrOfTail tail with
      | some idList, some depr, some rem => some ⟨n, idList, depr, rem⟩
      | _, _, _ => none
  | _ => none

/-- Name-only metadata, the reconstruction used when parsing the legacy
dialect (which carries no identifiers, deprecation flag or remarks). -/
def nameOnlyMeta (n : String) : Metadata := ⟨n, [], false, none⟩

def ellipsoidToWKT (e : Ellipsoid) : WKT :=
  .node "ELLIPSOID" (.cons (metaToWKT e.meta) (.cons (.num e.semiMajorAxis)
    (.cons (unitToWKT e.unit) (optNumTail e.inverseFlattening))))

def ellipsoidToWKT1 (e : Ellipsoid) : WKT :=
  .node "SPHEROID" (.cons (.str e.meta.name) (.cons (.num e.semiMajorAxis)
    (.cons (unitToWKT e.unit) (optNumTail e.inverseFlattening))))

def ellipsoidOfWKT : WKT → Option Ellipsoid
  | .node "ELLIPSOID" (.cons mw (.cons (.num a) (.cons uw tail))) =>
      match metaOfWKT mw, unitOfWKT uw, optNumOfTail tail with
      | some m, some u, some invf => some ⟨m, a, u, invf⟩
      | _, _, _ => none
  | .node "SPHEROID" (.cons (.str n) (.cons (.num a) (.cons uw tail))) =>
      match unitOfWKT uw, optNumOfTail tail with
      | some u, some invf => some ⟨nameOnlyMeta n, a, u, invf⟩
      | _, _ => none
  | _ => none

def pmToWKT (p : PrimeMeridian) : WKT :=
  .node "PRIMEM" (.cons (metaToWKT p.meta) (.cons (.num p.longitude)
    (.cons (unitToWKT p.unit) .nil)))

def pmToWKT1 (p : PrimeMeridian) : WKT :=
  .node "PRIMEM" (.cons (.str p.meta.name) (.cons (.num p.longitude)
    (.cons (unitToWKT p.unit) .nil)))

def pmOfWKT : WKT → Option PrimeMeridian
  | .node "PRIMEM" (.cons (.node "METADATA" margs)
      (.cons (.num l) (.cons uw .nil))) =>
      match metaOfWKT (.node "METADATA" margs), unitOfWKT uw with
      | some m, some u => some ⟨m, l, u⟩
      | _, _ => none
  | .node "PRIMEM" (.cons (.str n) (.cons (.num l) (.cons uw .nil))) =>
      (unitOfWKT uw).map fun u => ⟨nameOnlyMeta n, l, u⟩
  | _ => none

def datumToWKT : Datum → WKT
  | .geodeticFrame m e p f =>
      .node "DATUM" (.cons (metaToWKT m) (.cons (ellipsoidToWKT e)
        (.cons (pmToWKT p) (optNumTail f))))
  | .verticalFrame m f => .node "VDATUM" (.cons (metaToWKT m) (optNumTail f))
  | .engineeringDatum m => .node "EDATUM" (.cons (metaToWKT m) .nil)

def datumToWKT1 : Datum → WKT
  | .geodeticFrame m e p f =>
      .node "DATUM" (.cons (.str m.name) (.cons (ellipsoidToWKT1 e)
        (.cons (pmToWKT1 p) (optNumTail f))))
  | .verticalFrame m f => .node "VDATUM" (.cons (.str m.name) (optNumTail f))
  | .engineeringDatum m => .node "EDATUM" (.cons (.str m.name) .nil)

def datumOfWKT : WKT → Option Datum
  | .node "DATUM" (.cons (.node "METADATA" margs)
      (.cons ew (.cons pw tail))) =>
      match metaOfWKT (.node "METADATA" margs), ellipsoidOfWKT ew,
          pmOfWKT pw, optNumOfTail tail with
      | some m, some e, some p, some f => some (.geodeticFrame m e p f)
      | _, _, _, _ => none
  | .node "DATUM" (.cons (.str n) (.cons ew (.cons pw tail))) =>
      match ellipsoidOfWKT ew, pmOfWKT pw, optNumOfTail tail with
      | some e, some p, some f => some (.geodeticFrame (nameOnlyMeta n) e p f)
      | _, _, _ => none
  | .node "VDATUM" (.cons (.node "METADATA" margs) tail) =>
      match metaOfWKT (.node "METADATA" margs), optNumOfTail tail with
      | some m, some f => some (.verticalFrame m f)
      | _, _ => none
  | .node "VDATUM" (.cons (.str n) tail) =>
      (optNumOfTail tail).map fun f => .verticalFrame (nameOnlyMeta n) f
  | .node "EDATUM" (.cons (.node "METADATA" margs) .nil) =>
      (metaOfWKT (.node "METADATA" margs)).map fun m => .engineeringDatum m
  | .node "EDATUM" (.cons (.str n) .nil) =>
      some (.engineeringDatum (nameOnlyMeta n))
  | _ => none

def ensembleToWKT (e : DatumEnsemble) : WKT :=
  .node "ENSEMBLE" (.cons (metaToWKT e.meta) (.cons (.num e.accuracy)
    (.cons (.node "MEMBERS" (wktOfList datumToWKT e.members)) .nil)))

def ensembleOfWKT : WKT → Option DatumEnsemble
  | .node "ENSEMBLE" (.cons mw (.cons (.num a)
      (.cons (.node "MEMBERS" ms) .nil))) =>
      match metaOfWKT mw, listOfWKT datumOfWKT ms with
      | some m, some mems => some ⟨m, mems, a⟩
      | _, _ => none
  | _ => none

def doeToWKT : DatumOrEnsemble → WKT
  | .datum d => datumToWKT d
  | .ensemble e => ensembleToWKT e

def wktKeywordOf : WKT → String
  | .node kw _ => kw
  | _ => ""

def doeOfWKT (w : WKT) : Option DatumOrEnsemble :=
  if wktKeywordOf w = "ENSEMBLE" then (ensembleOfWKT w).map .ensemble
  else (datumOfWKT w).map .datum

def directionTag : AxisDirection → String
  | .north => "NORTH"
  | .south => "SOUTH"
  | .east => "EAST"
  | .west => "WEST"
  | .up => "UP"
  | .down => "DOWN"
  | .other => "OTHER"

def directionOfTag (s : String) : Option AxisDirection :=
  if s = "NORTH" then some .north
  else if s = "SOUTH" then some .south
  else if s = "EAST" then some .east
  else if s = "WEST" then some .west
  else if s = "UP" then some .up
  else if s = "DOWN" then some .down
  else if s = "OTHER" then some .other
  else none

def axisToWKT (a : Axis) : WKT :=
  .node "AXIS" (.cons (.str a.name) (.cons (.str a.abbreviation)
    (.cons (.str (directionTag a.direction)) (.cons (unitToWKT a.unit) .nil))))

def axisOfWKT : WKT → Option Axis
  | .node "AXIS" (.cons (.str n) (.cons (.str ab)
      (.cons (.str d) (.cons uw .nil)))) =>
      match directionOfTag d, unitOfWKT uw with
      | some dir, some u => some ⟨n, ab, dir, u⟩
      | _, _ => none
  | _ => none

def csKindTag : CSKind → String
  | .cartesian => "CARTESIAN"
  | .ellipsoidal => "ELLIPSOIDAL"
  | .vertical => "VERTICAL"
  | .spherical => "SPHERICAL"
  | .ordinal => "ORDINAL"
  | .parametric => "PARAMETRIC"
  | .dateTimeTemporal => "DATETIMETEMPORAL"
  | .temporalCount => "TEMPORALCOUNT"
  | .temporalMeasure => "TEMPORALMEASURE"

def csKindOfTag (s : String) : Option CSKind :=
  if s = "CARTESIAN" then some .cartesian
  else if s = "ELLIPSOIDAL" then some .ellipsoidal
  else if s = "VERTICAL" then some .vertical
  else if s = "SPHERICAL" then some .spherical
  else if s = "ORDINAL" then some .ordinal
  else if s = "PARAMETRIC" then some .parametric
  else if s = "DATETIMETEMPORAL" then some .dateTimeTemporal
  else if s = "TEMPORALCOUNT" then some .temporalCount
  else if s = "TEMPORALMEASURE" then some .temporalMeasure
  else none

/-- Axes are emitted in both conventions, so that the structural axis
content survives the round-trip. -/
def csToWKT (cs : CoordinateSystem) : WKT :=
  .node "CS" (.cons (.str (csKindTag cs.kind))
    (.cons (.node "AXES" (wktOfList axisToWKT cs.axes)) .nil))

def csOfWKT : WKT → Option CoordinateSystem
  | .node "CS" (.cons (.str k) (.cons (.node "AXES" axs) .nil)) =>
      match csKindOfTag k, listOfWKT axisOfWKT axs with
      | some kind, some axes => some ⟨kind, axes⟩
      | _, _ => none
  | _ => none

def paramValueToWKT : ParamValue → WKT
  | .measure v u => .node "MEASURE" (.cons (.num v) (.cons (unitToWKT u) .nil))
  | .filename p => .node "FILENAME" (.cons (.str p) .nil)
  | .string s => .node "STRINGVALUE" (.cons (.str s) .nil)

def paramValueOfWKT : WKT → Option ParamValue
  | .node "MEASURE" (.cons (.num v) (.cons uw .nil)) =>
      (unitOfWKT uw).map fun u => .measure v u
  | .node "FILENAME" (.cons (.str p) .nil) => some (.filename p)
  | .node "STRINGVALUE" (.cons (.str s) .nil) => some (.string s)
  | _ => none

def paramToWKT (p : OperationParameter) : WKT :=
  .node "PARAMETER" (.cons (.str p.name) (.cons (paramValueToWKT p.value) .nil))

def paramOfWKT : WKT → Option OperationParameter
  | .node "PARAMETER" (.cons (.str n) (.cons vw .nil)) =>
      (paramValueOfWKT vw).map fun v => ⟨n, v⟩
  | _ => none

def singleOpToWKT (d : SingleOpData) : WKT :=
  .node "CONVERSION" (.cons (metaToWKT d.meta) (.cons (.str d.methodName)
    (.cons (.node "PARAMS" (wktOfList paramToWKT d.parameters)) .nil)))

def singleOpToWKT1 (d : SingleOpData) : WKT :=
  .node "PROJECTION" (.cons (.str d.meta.name) (.cons (.str d.methodName)
    (.cons (.node "PARAMS" (wktOfList paramToWKT d.parameters)) .nil)))

def singleOpOfWKT : WKT → Option SingleOpData
  | .node "CONVERSION" (.cons mw (.cons (.str method)
      (.cons (.node "PARAMS" ps) .nil))) =>
      match metaOfWKT mw, listOfWKT paramOfWKT ps with
      | some m, some params => some ⟨m, method, params⟩
      | _, _ => none
  | .node "PROJECTION" (.cons (.str n) (.cons (.str method)
      (.cons (.node "PARAMS" ps) .nil))) =>
      (listOfWKT paramOfWKT ps).map fun params => ⟨nameOnlyMeta n, method, params⟩
  | _ => none

def strOfWKT : WKT → Option String
  | .str s => some s
  | _ => none

def coordOpToWKT : CoordinateOperation → WKT
  | .conversion d => singleOpToWKT d
  | .transformation d accs =>
      .node "COORDINATEOPERATION" (.cons (singleOpToWKT d)
        (.cons (.node "ACCURACIES" (wktOfList WKT.str accs)) .nil))
  | .concatenated m steps accs =>
      .node "CONCATENATEDOPERATION" (.cons (metaToWKT m)
        (.cons (.node "STEPS" (wktOfList singleOpToWKT steps))
          (.cons (.node "ACCURACIES" (wktOfList WKT.str accs)) .nil)))

def coordOpOfWKT : WKT → Option CoordinateOperation
  | .node "CONVERSION" args =>
      (singleOpOfWKT (.node "CONVERSION" args)).map .conversion
  | .node "COORDINATEOPERATION" (.cons dw
      (.cons (.node "ACCURACIES" accs) .nil)) =>
      match singleOpOfWKT dw, listOfWKT strOfWKT accs with
      | some d, some a => some (.transformation d a)
      | _, _ => none
  | .node "CONCATENATEDOPERATION" (.cons mw
      (.cons (.node "STEPS" steps) (.cons (.node "ACCURACIES" accs) .nil))) =>
      match metaOfWKT mw, listOfWKT singleOpOfWKT steps,
          listOfWKT strOfWKT accs with
      | some m, some s, some a => some (.concatenated m s a)
      | _, _, _ => none
  | _ => none

mutual

/-- Serialization of a CRS in the modern grammar (total: every CRS variant
has a representation). -/
def crsToWKT : CRS → WKT
  | .geodetic m d cs =>
      .node "GEODCRS" (.cons (metaToWKT m) (.cons (doeToWKT d)
        (.cons (csToWKT cs) .nil)))
  | .vertical m d cs =>
      .node "VERTCRS" (.cons (metaToWKT m) (.cons (doeToWKT d)
        (.cons (csToWKT cs) .nil)))
  | .projected m b c cs =>
      .node "PROJCRS" (.cons (metaToWKT m) (.cons (crsToWKT b)
        (.cons (singleOpToWKT c) (.cons (csToWKT cs) .nil))))
  | .compound m comps =>
      .node "COMPOUNDCRS" (.cons (metaToWKT m)
        (.cons (.node "COMPONENTS" (crsListToWKT comps)) .nil))
  | .bound m b h t =>
      .node "BOUNDCRS" (.cons (metaToWKT m) (.cons (crsToWKT b)
        (.cons (crsToWKT h) (.cons (singleOpToWKT t) .nil))))
  | .engineering m d cs =>
      .node "ENGCRS" (.cons (metaToWKT m) (.cons (datumToWKT d)
        (.cons (csToWKT cs) .nil)))
  | .temporal m cs =>
      .node "TIMECRS" (.cons (metaToWKT m) (.cons (csToWKT cs) .nil))

def crsListToWKT : CRSList → WKTList
  | .nil => .nil
  | .cons c tl => .cons (crsToWKT c) (crsListToWKT tl)

end

mutual

/-- Serialization of a CRS in the legacy dialect; fails
(`FormattingNotSupported`, modelled as `none`) on datum ensembles, bound
CRS and temporal CRS, which have no representation there, and drops all
metadata except the primary name. -/
def crsToWKT1 : CRS → Option WKT
  | .geodetic m (.datum d) cs =>
      some (.node "GEOGCS" (.cons (.str m.name) (.cons (datumToWKT1 d)
        (.cons (csToWKT cs) .nil))))
  | .geodetic _ (.ensemble _) _ => none
  | .vertical m (.datum d) cs =>
      some (.node "VERT_CS" (.cons (.str m.name) (.cons (datumToWKT1 d)
        (.cons (csToWKT cs) .nil))))
  | .vertical _ (.ensemble _) _ => none
  | .projected m b c cs =>
      (crsToWKT1 b).map fun bw =>
        .node "PROJCS" (.cons (.str m.name) (.cons bw
          (.cons (singleOpToWKT1 c) (.cons (csToWKT cs) .nil))))
  | .compound m comps =>
      (crsListToWKT1 comps).map fun cw =>
        .node "COMPD_CS" (.cons (.str m.name)
          (.cons (.node "COMPONENTS" cw) .nil))
  | .bound _ _ _ _ => none
  | .engineering m d cs =>
      some (.node "LOCAL_CS" (.cons (.str m.name) (.cons (datumToWKT1 d)
        (.cons (csToWKT cs) .nil))))
  | .temporal _ _ => none

def crsListToWKT1 : CRSList → Option WKTList
  | .nil => some .nil
  | .cons c tl =>
      match crsToWKT1 c, crsListToWKT1 tl with
      | some w, some ws => some (.cons w ws)
      | _, _ => none

end

mutual

/-- Parsing of a CRS from either convention's tree shape, dispatching on
the node keyword. -/
def crsOfWKT : WKT → Option CRS
  | .node kw args =>
      if kw = "GEODCRS" then geodcrsFromArgs args
      else if kw = "GEOGCS" then geogcsFromArgs args
      else if kw = "VERTCRS" then vertcrsFromArgs args
      else if kw = "VERT_CS" then vertcs1FromArgs args
      else if kw = "PROJCRS" then projcrsFromArgs args
      else if kw = "PROJCS" then projcs1FromArgs args
      else if kw = "COMPOUNDCRS" then compoundcrsFromArgs args
      else if kw = "COMPD_CS" then compdcs1FromArgs args
      else if kw = "BOUNDCRS" then boundcrsFromArgs args
      else if kw = "ENGCRS" then engcrsFromArgs args
      else if kw = "LOCAL_CS" then localcs1FromArgs args
      else if kw = "TIMECRS" then timecrsFromArgs args
      else none
  | _ => none

/-- Parsing helper for the modern geodetic CRS node. -/
def geodcrsFromArgs : WKTList → Option CRS
  | .cons mw (.cons dw (.cons csw .nil)) =>
      match metaOfWKT mw, doeOfWKT dw, csOfWKT csw with
      | some m, some d, some cs => some (.geodetic m d cs)
      | _, _, _ => none
  | _ => none

/-- Parsing helper for the legacy geographic CRS node. -/
def geogcsFromArgs : WKTList → Option CRS
  | .cons (.str n) (.cons dw (.cons csw .nil)) =>
      match datumOfWKT dw, csOfWKT csw with
      | some d, some cs => some (.geodetic (nameOnlyMeta n) (.datum d) cs)
      | _, _ => none
  | _ => none

/-- Parsing helper for the modern vertical CRS node. -/
def vertcrsFromArgs : WKTList → Option CRS
  | .cons mw (.cons dw (.cons csw .nil)) =>
      match metaOfWKT mw, doeOfWKT dw, csOfWKT csw with
      | some m, some d, some cs => some (.vertical m d cs)
      | _, _, _ => none
  | _ => none

/-- Parsing helper for the legacy vertical CRS node. -/
def vertcs1FromArgs : WKTList → Option CRS
  | .cons (.str n) (.cons dw (.cons csw .nil)) =>
      match datumOfWKT dw, csOfWKT csw with
      | some d, some cs => some (.vertical (nameOnlyMeta n) (.datum d) cs)
      | _, _ => none
  | _ => none

/-- Parsing helper for the modern projected CRS node. -/
def projcrsFromArgs : WKTList → Option CRS
  | .cons mw (.cons bw (.cons cw (.cons csw .nil))) =>
      match metaOfWKT mw, crsOfWKT bw, singleOpOfWKT cw, csOfWKT csw with
      | some m, some b, some c, some cs => some (.projected m b c cs)
      | _, _, _, _ => none
  | _ => none

/-- Parsing helper for the legacy projected CRS node. -/
def projcs1FromArgs : WKTList → Option CRS
  | .cons (.str n) (.cons bw (.cons cw (.cons csw .nil))) =>
      match crsOfWKT bw, singleOpOfWKT cw, csOfWKT csw with
      | some b, some c, some cs => some (.projected (nameOnlyMeta n) b c cs)
      | _, _, _ => none
  | _ => none

/-- Parsing helper for the modern compound CRS node. -/
def compoundcrsFromArgs : WKTList → Option CRS
  | .cons mw (.cons (.node "COMPONENTS" comps) .nil) =>
      match metaOfWKT mw, crsListOfWKT comps with
      | some m, some cl => some (.compound m cl)
      | _, _ => none
  | _ => none

/-- Parsing helper for the legacy compound CRS node. -/
def compdcs1FromArgs : WKTList → Option CRS
  | .cons (.str n) (.cons (.node "COMPONENTS" comps) .nil) =>
      (crsListOfWKT comps).map fun cl => .compound (nameOnlyMeta n) cl
  | _ => none

/-- Parsing helper for the bound CRS node. -/
def boundcrsFromArgs : WKTList → Option CRS
  | .cons mw (.cons bw (.cons hw (.cons tw .nil))) =>
      match metaOfWKT mw, crsOfWKT bw, crsOfWKT hw, singleOpOfWKT tw with
      | some m, some b, some h, some t => some (.bound m b h t)
      | _, _, _, _ => none
  | _ => none

/-- Parsing helper for the modern engineering CRS node. -/
def engcrsFromArgs : WKTList → Option CRS
  | .cons mw (.cons dw (.cons csw .nil)) =>
      match metaOfWKT mw, datumOfWKT dw, csOfWKT csw with
      | some m, some d, some cs => some (.engineering m d cs)
      | _, _, _ => none
  | _ => none

/-- Parsing helper for the legacy engineering CRS node. -/
def localcs1FromArgs : WKTList → Option CRS
  | .cons (.str n) (.cons dw (.cons csw .nil)) =>
      match datumOfWKT dw, csOfWKT csw with
      | some d, some cs => some (.engineering (nameOnlyMeta n) d cs)
      | _, _ => none
  | _ => none

/-- Parsing helper for the temporal CRS node. -/
def timecrsFromArgs : WKTList → Option CRS
  | .cons mw (.cons csw .nil) =>
      match metaOfWKT mw, csOfWKT csw with
      | some m, some cs => some (.temporal m cs)
      | _, _ => none
  | _ => none

def crsListOfWKT : WKTList → Option CRSList
  | .nil => some .nil
  | .cons w tl =>
      match crsOfWKT w, crsListOfWKT tl with
      | some c, some cs => some (.cons c cs)
      | _, _ => none

end

/-! ### Metadata stripping (the information lost by the legacy dialect) -/

def Metadata.strip (m : Metadata) : Metadata := nameOnlyMeta m.name

def Ellipsoid.strip (e : Ellipsoid) : Ellipsoid :=
  { e with meta := e.meta.strip }

def PrimeMeridian.strip (p : PrimeMeridian) : PrimeMeridian :=
  { p with meta := p.meta.strip }

def Datum.strip : Datum → Datum
  | .geodeticFrame m e p f => .geodeticFrame m.strip e.strip p.strip f
  | .verticalFrame m f => .verticalFrame m.strip f
  | .engineeringDatum m => .engineeringDatum m.strip

def SingleOpData.strip (d : SingleOpData) : SingleOpData :=
  { d with meta := d.meta.strip }

mutual

def CRS.strip : CRS → CRS
  | .geodetic m d cs =>
      .geodetic m.strip
        (match d with
         | .datum dd => .datum dd.strip
         | .ensemble e => .ensemble e) cs
  | .vertical m d cs =>
      .vertical m.strip
        (match d with
         | .datum dd => .datum dd.strip
         | .ensemble e => .ensemble e) cs
  | .projected m b c cs => .projected m.strip b.strip c.strip cs
  | .compound m comps => .compound m.strip (CRSList.strip comps)
  | .bound m b h t => .bound m.strip b.strip h.strip t.strip
  | .engineering m d cs => .engineering m.strip d.strip cs
  | .temporal m cs => .temporal m.strip cs

def CRSList.strip : CRSList → CRSList
  | .nil => .nil
  | .cons c tl => .cons c.strip (CRSList.strip tl)

end

/-! ### Entity-level codec and the C API wrappers -/

def objToWKT2 : IdentifiedObject → WKT
  | .crs c => crsToWKT c
  | .operation op => coordOpToWKT op
  | .ellipsoid e => ellipsoidToWKT e
  | .primeMeridian p => pmToWKT p
  | .datum d => datumToWKT d

/-- The legacy dialect has no representation for coordinate operations. -/
def objToWKT1 : IdentifiedObject → Option WKT
  | .crs c => crsToWKT1 c
  | .operation _ => none
  | .ellipsoid e => some (ellipsoidToWKT1 e)
  | .primeMeridian p => some (pmToWKT1 p)
  | .datum d => some (datumToWKT1 d)

def IdentifiedObject.strip : IdentifiedObject → IdentifiedObject
  | .crs c => .crs c.strip
  | .operation op => .operation op
  | .ellipsoid e => .ellipsoid e.strip
  | .primeMeridian p => .primeMeridian p.strip
  | .datum d => .datum d.strip

def crsKeywords : List String :=
  ["GEODCRS", "VERTCRS", "PROJCRS", "COMPOUNDCRS", "BOUNDCRS", "ENGCRS",
   "TIMECRS", "GEOGCS", "VERT_CS", "PROJCS", "COMPD_CS", "LOCAL_CS"]

def opKeywords : List String :=
  ["CONVERSION", "COORDINATEOPERATION", "CONCATENATEDOPERATION"]

def datumKeywords : List String := ["DATUM", "VDATUM", "EDATUM"]

/-- Parsing of any identified object, dispatching on the leading
keyword. -/
def objOfWKT (w : WKT) : Option IdentifiedObject :=
  if wktKeywordOf w ∈ crsKeywords then (crsOfWKT w).map .crs
  else if wktKeywordOf w ∈ opKeywords then (coordOpOfWKT w).map .operation
  else if wktKeywordOf w ∈ ["ELLIPSOID", "SPHEROID"] then
    (ellipsoidOfWKT w).map .ellipsoid
  else if wktKeywordOf w = "PRIMEM" then (pmOfWKT w).map .primeMeridian
  else if wktKeywordOf w ∈ datumKeywords then (datumOfWKT w).map .datum
  else none

/-- Modelled from the spec: `format(object, convention)` — fails with
`FormattingNotSupported` (modelled as `none`) when the object variant has
no representation in the requested convention. -/
def format (obj : IdentifiedObject) : Convention → Option WKT
  | .wkt2 => some (objToWKT2 obj)
  | .wkt1 => objToWKT1 obj

/-- Modelled from the spec: `parse(text)` — full parse into the object
model, failing on malformed structure. -/
def parse (w : WKT) : Option IdentifiedObject := objOfWKT w

/-- From `c_api.cpp:1089-1157` (`proj_obj_as_wkt`): exports the wrapped
object in the requested convention; returns `none` (the `NULL` result)
when the object is not compatible with the requested type. -/
def proj_obj_as_wkt (obj : PJ_OBJ) (type : Convention) : Option WKT :=
  format obj.obj type

/-- From `c_api.cpp:408-428` (`proj_obj_create_from_wkt`): parses a WKT
text into a fresh object, `none` (the `NULL` result) on failure. -/
def proj_obj_create_from_wkt (wkt : WKT) : Option PJ_OBJ :=
  (parse wkt).map PJ_OBJ.create

/-! ## WKT dialect guessing

Modelled from the spec: `guessDialect(text)` inspects leading
tokens/structure only (no full parse) and returns one of the dialect tags
or "not recognized"; it must not throw on malformed input.
(`WKTParser::guessDialect`, called at `c_api.cpp:284`, is not in the given
sources.)  The leading structure inspected is the first keyword token and
the first quoted name. -/

def isTokenChar (c : Char) : Bool := c.isAlpha || c == '_'

/-- The first keyword token of the text: leading non-token characters are
skipped, then the maximal run of token characters is taken. -/
def firstToken (s : String) : String :=
  String.mk ((s.data.dropWhile fun c => !isTokenChar c).takeWhile isTokenChar)

/-- The first quoted name of the text (empty when there is none). -/
def firstQuoted (s : String) : String :=
  String.mk ((((s.data.dropWhile fun c => c != '"').drop 1).takeWhile
    fun c => c != '"'))

/-- From `WKTParser::WKTGuessedDialect` as mirrored at
`c_api.cpp:284-295`. -/
inductive WKTGuessedDialect where
  | wkt2_2018
  | wkt2_2015
  | wkt1_gdal
  | wkt1_esri
  | notWKT
deriving DecidableEq, Repr

/-- Leading keywords of the second generation of the multi-line
grammar. -/
def wkt2_2018Keywords : List String := ["GEOGCRS", "BASEGEOGCRS"]

/-- Leading keywords of the first generation of the multi-line grammar. -/
def wkt2_2015Keywords : List String :=
  ["GEODCRS", "PROJCRS", "VERTCRS", "BOUNDCRS", "COMPOUNDCRS", "TIMECRS",
   "ENGCRS", "COORDINATEOPERATION", "CONVERSION", "CONCATENATEDOPERATION"]

/-- Leading keywords of the legacy single-generation dialects. -/
def wkt1Keywords : List String :=
  ["GEOGCS", "PROJCS", "GEOCCS", "VERT_CS", "LOCAL_CS", "COMPD_CS"]

/-- Modelled from the spec: dialect guess from the leading token (matched
case-insensitively) and, for the legacy keywords, the vendor-specific
naming convention of the first quoted name. -/
def guessDialect (wkt : String) : WKTGuessedDialect :=
  let t := asciiUpper (firstToken wkt)
  if t ∈ wkt2_2018Keywords then .wkt2_2018
  else if t ∈ wkt2_2015Keywords then .wkt2_2015
  else if t ∈ wkt1Keywords then
    if (firstQuoted wkt).startsWith "GCS_"
        || (firstQuoted wkt).startsWith "D_" then .wkt1_esri
    else .wkt1_gdal
  else .notWKT

/-- From `PJ_GUESSED_WKT_DIALECT` at `c_api.cpp:280-297`. -/
inductive PJ_GUESSED_WKT_DIALECT where
  | PJ_GUESSED_WKT2_2018
  | PJ_GUESSED_WKT2_2015
  | PJ_GUESSED_WKT1_GDAL
  | PJ_GUESSED_WKT1_ESRI
  | PJ_GUESSED_NOT_WKT
deriving DecidableEq, Repr

/-- From `c_api.cpp:280-297` (`proj_context_guess_wkt_dialect`): maps the
parser's guess onto the C enumeration. -/
def proj_context_guess_wkt_dialect (wkt : String) : PJ_GUESSED_WKT_DIALECT :=
  match guessDialect wkt with
  | .wkt2_2018 => .PJ_GUESSED_WKT2_2018
  | .wkt2_2015 => .PJ_GUESSED_WKT2_2015
  | .wkt1_gdal => .PJ_GUESSED_WKT1_GDAL
  | .wkt1_esri => .PJ_GUESSED_WKT1_ESRI
  | .notWKT => .PJ_GUESSED_NOT_WKT

/-! ## Grids-needed cache

From `c_api.cpp:5495-5520` (`proj_coordoperation_get_grid_used_count`) and
`c_api.cpp:5548-5591` (`proj_coordoperation_get_grid_used`).  The external
grid-availability collaborator (`co->gridsNeeded(dbContext)`) is a
parameter; each function returns its result, the updated `PJ_OBJ` state
and the number of collaborator queries it performed. -/

def proj_coordoperation_get_grid_used_count
    (gridsOf : CoordinateOperation → List GridDescription)
    (coordoperation : PJ_OBJ) : ℤ × PJ_OBJ × ℕ :=
  match coordoperation.obj with
  | .operation co =>
      if coordoperation.gridsNeededAsked then
        ((coordoperation.gridsNeeded.length : ℤ), coordoperation, 0)
      else
        let newGrids := coordoperation.gridsNeeded ++ gridsOf co
        ((newGrids.length : ℤ),
         { coordoperation with gridsNeededAsked := true,
                               gridsNeeded := newGrids }, 1)
  | _ => (0, coordoperation, 0)

def proj_coordoperation_get_grid_used
    (gridsOf : CoordinateOperation → List GridDescription)
    (coordoperation : PJ_OBJ) (index : ℤ) :
    Option GridDescription × PJ_OBJ × ℕ :=
  let r := proj_coordoperation_get_grid_used_count gridsOf coordoperation
  if index < 0 ∨ r.1 ≤ index then (none, r.2.1, r.2.2)
  else (r.2.1.gridsNeeded[index.toNat]?, r.2.1, r.2.2)

/-! ## Operation accuracy -/

/-- The value of the accumulated digits of a decimal string. -/
def digitsVal (ds : List Char) : ℕ :=
  ds.foldl (fun acc c => acc * 10 + (c.toNat - '0'.toNat)) 0

/-- Modelled from the C library contract of `c_locale_stod` (not in the
given sources): parses the leading decimal number — an optional sign, then
digits with an optional fractional part — and fails (`none`, the thrown
exception) when no conversion can be performed; trailing characters are
ignored. -/
def c_locale_stod (s : String) : Option ℚ :=
  let signRest : Bool × List Char :=
    match s.data with
    | '-' :: r => (true, r)
    | '+' :: r => (false, r)
    | r => (false, r)
  let intDigits := signRest.2.takeWhile Char.isDigit
  let afterInt := signRest.2.dropWhile Char.isDigit
  let fracDigits : List Char :=
    match afterInt with
    | '.' :: r => r.takeWhile Char.isDigit
    | _ => []
  if intDigits.isEmpty && fracDigits.isEmpty then none
  else
    let n : ℕ :=
      digitsVal intDigits * 10 ^ fracDigits.length + digitsVal fracDigits
    some (mkRat (if signRest.1 then -(n : ℤ) else (n : ℤ))
      (10 ^ fracDigits.length))

/-- From `c_api.cpp:6039-6059` (`proj_coordoperation_get_accuracy`):
returns -1 when the object is not a coordinate operation, when its
accuracy list is empty, or when the first accuracy value does not parse;
otherwise the parsed value of the first accuracy claim. -/
def proj_coordoperation_get_accuracy (coordoperation : PJ_OBJ) : ℚ :=
  match coordoperation.obj with
  | .operation co =>
      match co.coordinateOperationAccuracies with
      | [] => -1
      | a :: _ =>
          match c_locale_stod a with
          | some v => v
          | none => -1
  | _ => -1

/-! ## Sample objects used by the concrete witnesses -/

def metreUnit : UnitOfMeasure := ⟨"metre", 1, .linear⟩

def degreeUnit : UnitOfMeasure := ⟨"degree", mkRat 17453293 1000000000, .angular⟩

def wgs84Ellipsoid : Ellipsoid :=
  ⟨nameOnlyMeta "WGS 84", 6378137, metreUnit,
    some (mkRat 298257223563 1000000000)⟩

def greenwichPM : PrimeMeridian := ⟨nameOnlyMeta "Greenwich", 0, degreeUnit⟩

def wgs84Datum : Datum :=
  .geodeticFrame (nameOnlyMeta "World Geodetic System 1984") wgs84Ellipsoid
    greenwichPM none

def longitudeAxis : Axis := ⟨"Longitude", "lon", .east, degreeUnit⟩

def latitudeAxis : Axis := ⟨"Latitude", "lat", .north, degreeUnit⟩

def ellipsoidal2D : CoordinateSystem :=
  ⟨.ellipsoidal, [longitudeAxis, latitudeAxis]⟩

def wgs84CRS : CRS :=
  .geodetic (nameOnlyMeta "WGS 84") (.datum wgs84Datum) ellipsoidal2D

def mslVerticalCRS : CRS :=
  .vertical (nameOnlyMeta "MSL height")
    (.datum (.verticalFrame (nameOnlyMeta "Mean Sea Level") none))
    ⟨.vertical, [⟨"Gravity-related height", "H", .up, metreUnit⟩]⟩

/-- A catalog answering three cataloged operations for any query pair. -/
def sampleCatalog : OperationCatalog :=
  { directOps := fun _ _ =>
      [{ overlap := some 10, accuracy := none, catalogIndex := 1 },
       { overlap := none, accuracy := some 5, catalogIndex := 2 },
       { overlap := some 3, accuracy := some 1, catalogIndex := 3 }],
    pivotOps := fun _ _ => [] }

/-- A catalog with no cataloged operations at all. -/
def emptyCatalog : OperationCatalog :=
  { directOps := fun _ _ => [], pivotOps := fun _ _ => [] }

def sampleTransformation : CoordinateOperation :=
  .transformation ⟨nameOnlyMeta "Sample shift", "Geocentric translations", []⟩
    ["2.5"]

def sampleGrid : GridDescription :=
  ⟨"g1", "g1.tif", "pkg", "https://example.org/g1", true, true, true⟩

/-- The accuracy-5 candidate of `sampleCatalog`. -/
def sampleOpAcc5 : OpCandidate :=
  { overlap := none, accuracy := some 5, catalogIndex := 2 }

/-! ## Equivalence is an equivalence relation: component lemmas -/

theorem metaEquiv_refl (crit : Criterion) (a : Metadata) :
    metaEquiv crit a a = true := by
  cases crit <;> simp [metaEquiv]

theorem metaEquiv_symm (crit : Criterion) (a b : Metadata)
    (h : metaEquiv crit a b = true) : metaEquiv crit b a = true := by
  cases crit <;> simp_all [metaEquiv]

theorem metaEquiv_trans (crit : Criterion) (a b c : Metadata)
    (h₁ : metaEquiv crit a b = true) (h₂ : metaEquiv crit b c = true) :
    metaEquiv crit a c = true := by
  cases crit <;> simp_all [metaEquiv]

theorem unitEquiv_refl (crit : Criterion) (a : UnitOfMeasure) :
    unitEquiv crit a a = true := by
  cases crit <;> simp [unitEquiv]

theorem unitEquiv_symm (crit : Criterion) (a b : UnitOfMeasure)
    (h : unitEquiv crit a b = true) : unitEquiv crit b a = true := by
  cases crit <;> simp_all [unitEquiv]

theorem unitEquiv_trans (crit : Criterion) (a b c : UnitOfMeasure)
    (h₁ : unitEquiv crit a b = true) (h₂ : unitEquiv crit b c = true) :
    unitEquiv crit a c = true := by
  cases crit <;> simp_all [unitEquiv]

theorem allEquiv_refl (f : α → α → Bool) (hf : ∀ a, f a a = true) :
    ∀ l, allEquiv f l l = true := by
  intro l
  induction l with
  | nil => rfl
  | cons x xs ih => simp [allEquiv, hf x, ih]

theorem allEquiv_symm (f : α → α → Bool)
    (hf : ∀ a b, f a b = true → f b a = true) :
    ∀ l₁ l₂, allEquiv f l₁ l₂ = true → allEquiv f l₂ l₁ = true := by
  intro l₁
  induction l₁ with
  | nil => intro l₂ h; cases l₂ with
    | nil => rfl
    | cons y ys => simp [allEquiv] at h
  | cons x xs ih =>
      intro l₂ h
      cases l₂ with
      | nil => simp [allEquiv] at h
      | cons y ys =>
          simp only [allEquiv, Bool.and_eq_true] at h ⊢
          exact ⟨hf _ _ h.1, ih _ h.2⟩

theorem allEquiv_trans (f : α → α → Bool)
    (hf : ∀ a b c, f a b = true → f b c = true → f a c = true) :
    ∀ l₁ l₂ l₃, allEquiv f l₁ l₂ = true → allEquiv f l₂ l₃ = true →
      allEquiv f l₁ l₃ = true := by
  intro l₁
  induction l₁ with
  | nil =>
      intro l₂ l₃ h₁ h₂
      cases l₂ with
      | nil => exact h₂
      | cons y ys => simp [allEquiv] at h₁
  | cons x xs ih =>
      intro l₂ l₃ h₁ h₂
      cases l₂ with
      | nil => simp [allEquiv] at h₁
      | cons y ys =>
          cases l₃ with
          | nil => simp [allEquiv] at h₂
          | cons z zs =>
              simp only [allEquiv, Bool.and_eq_true] at h₁ h₂ ⊢
              exact ⟨hf _ _ _ h₁.1 h₂.1, ih _ _ h₁.2 h₂.2⟩

theorem ellipsoidEquiv_refl (crit : Criterion) (a : Ellipsoid) :
    ellipsoidEquiv crit a a = true := by
  simp [ellipsoidEquiv, metaEquiv_refl, unitEquiv_refl]

theorem ellipsoidEquiv_symm (crit : Criterion) (a b : Ellipsoid)
    (h : ellipsoidEquiv crit a b = true) : ellipsoidEquiv crit b a = true := by
  simp only [ellipsoidEquiv, Bool.and_eq_true, decide_eq_true_eq] at h ⊢
  obtain ⟨⟨⟨hm, hs⟩, hu⟩, hi⟩ := h
  exact ⟨⟨⟨metaEquiv_symm _ _ _ hm, hs.symm⟩, unitEquiv_symm _ _ _ hu⟩, hi.symm⟩

theorem ellipsoidEquiv_trans (crit : Criterion) (a b c : Ellipsoid)
    (h₁ : ellipsoidEquiv crit a b = true)
    (h₂ : ellipsoidEquiv crit b c = true) :
    ellipsoidEquiv crit a c = true := by
  simp only [ellipsoidEquiv, Bool.and_eq_true, decide_eq_true_eq] at h₁ h₂ ⊢
  obtain ⟨⟨⟨hm₁, hs₁⟩, hu₁⟩, hi₁⟩ := h₁
  obtain ⟨⟨⟨hm₂, hs₂⟩, hu₂⟩, hi₂⟩ := h₂
  exact ⟨⟨⟨metaEquiv_trans _ _ _ _ hm₁ hm₂, hs₁.trans hs₂⟩,
    unitEquiv_trans _ _ _ _ hu₁ hu₂⟩, hi₁.trans hi₂⟩

theorem primeMeridianEquiv_refl (crit : Criterion) (a : PrimeMeridian) :
    primeMeridianEquiv crit a a = true := by
  simp [primeMeridianEquiv, metaEquiv_refl, unitEquiv_refl]

theorem primeMeridianEquiv_symm (crit : Criterion) (a b : PrimeMeridian)
    (h : primeMeridianEquiv crit a b = true) :
    primeMeridianEquiv crit b a = true := by
  simp only [primeMeridianEquiv, Bool.and_eq_true, decide_eq_true_eq] at h ⊢
  obtain ⟨⟨hm, hl⟩, hu⟩ := h
  exact ⟨⟨metaEquiv_symm _ _ _ hm, hl.symm⟩, unitEquiv_symm _ _ _ hu⟩

theorem primeMeridianEquiv_trans (crit : Criterion) (a b c : PrimeMeridian)
    (h₁ : primeMeridianEquiv crit a b = true)
    (h₂ : primeMeridianEquiv crit b c = true) :
    primeMeridianEquiv crit a c = true := by
  simp only [primeMeridianEquiv, Bool.and_eq_true, decide_eq_true_eq] at h₁ h₂ ⊢
  obtain ⟨⟨hm₁, hl₁⟩, hu₁⟩ := h₁
  obtain ⟨⟨hm₂, hl₂⟩, hu₂⟩ := h₂
  exact ⟨⟨metaEquiv_trans _ _ _ _ hm₁ hm₂, hl₁.trans hl₂⟩,
    unitEquiv_trans _ _ _ _ hu₁ hu₂⟩

theorem datumEquiv_refl (crit : Criterion) (a : Datum) :
    datumEquiv crit a a = true := by
  cases a <;> simp [datumEquiv, metaEquiv_refl, ellipsoidEquiv_refl,
    primeMeridianEquiv_refl]

theorem datumEquiv_symm (crit : Criterion) (a b : Datum)
    (h : datumEquiv crit a b = true) : datumEquiv crit b a = true := by
  cases a <;> cases b <;>
    simp only [datumEquiv, Bool.and_eq_true, decide_eq_true_eq,
      Bool.false_eq_true] at h ⊢
  · obtain ⟨⟨⟨hm, he⟩, hp⟩, hf⟩ := h
    exact ⟨⟨⟨metaEquiv_symm _ _ _ hm, ellipsoidEquiv_symm _ _ _ he⟩,
      primeMeridianEquiv_symm _ _ _ hp⟩, hf.symm⟩
  · obtain ⟨hm, hf⟩ := h
    exact ⟨metaEquiv_symm _ _ _ hm, hf.symm⟩
  · exact metaEquiv_symm _ _ _ h

theorem datumEquiv_trans (crit : Criterion) (a b c : Datum)
    (h₁ : datumEquiv crit a b = true) (h₂ : datumEquiv crit b c = true) :
    datumEquiv crit a c = true := by
  cases a <;> cases b <;> cases c <;>
    simp only [datumEquiv, Bool.and_eq_true, decide_eq_true_eq,
      Bool.false_eq_true] at h₁ h₂ ⊢
  · obtain ⟨⟨⟨hm₁, he₁⟩, hp₁⟩, hf₁⟩ := h₁
    obtain ⟨⟨⟨hm₂, he₂⟩, hp₂⟩, hf₂⟩ := h₂
    exact ⟨⟨⟨metaEquiv_trans _ _ _ _ hm₁ hm₂,
      ellipsoidEquiv_trans _ _ _ _ he₁ he₂⟩,
      primeMeridianEquiv_trans _ _ _ _ hp₁ hp₂⟩, hf₁.trans hf₂⟩
  · obtain ⟨hm₁, hf₁⟩ := h₁
    obtain ⟨hm₂, hf₂⟩ := h₂
    exact ⟨metaEquiv_trans _ _ _ _ hm₁ hm₂, hf₁.trans hf₂⟩
  · exact metaEquiv_trans _ _ _ _ h₁ h₂

theorem datumEnsembleEquiv_refl (crit : Criterion) (a : DatumEnsemble) :
    datumEnsembleEquiv crit a a = true := by
  simp [datumEnsembleEquiv, metaEquiv_refl,
    allEquiv_refl _ (datumEquiv_refl crit)]

theorem datumEnsembleEquiv_symm (crit : Criterion) (a b : DatumEnsemble)
    (h : datumEnsembleEquiv crit a b = true) :
    datumEnsembleEquiv crit b a = true := by
  simp only [datumEnsembleEquiv, Bool.and_eq_true, decide_eq_true_eq] at h ⊢
  obtain ⟨⟨hm, hl⟩, ha⟩ := h
  exact ⟨⟨metaEquiv_symm _ _ _ hm,
    allEquiv_symm _ (datumEquiv_symm crit) _ _ hl⟩, ha.symm⟩

theorem datumEnsembleEquiv_trans (crit : Criterion) (a b c : DatumEnsemble)
    (h₁ : datumEnsembleEquiv crit a b = true)
    (h₂ : datumEnsembleEquiv crit b c = true) :
    datumEnsembleEquiv crit a c = true := by
  simp only [datumEnsembleEquiv, Bool.and_eq_true, decide_eq_true_eq] at h₁ h₂ ⊢
  obtain ⟨⟨hm₁, hl₁⟩, ha₁⟩ := h₁
  obtain ⟨⟨hm₂, hl₂⟩, ha₂⟩ := h₂
  exact ⟨⟨metaEquiv_trans _ _ _ _ hm₁ hm₂,
    allEquiv_trans _ (datumEquiv_trans crit) _ _ _ hl₁ hl₂⟩, ha₁.trans ha₂⟩

theorem datumOrEnsembleEquiv_refl (crit : Criterion) (a : DatumOrEnsemble) :
    datumOrEnsembleEquiv crit a a = true := by
  cases a <;> simp [datumOrEnsembleEquiv, datumEquiv_refl,
    datumEnsembleEquiv_refl]

theorem datumOrEnsembleEquiv_symm (crit : Criterion) (a b : DatumOrEnsemble)
    (h : datumOrEnsembleEquiv crit a b = true) :
    datumOrEnsembleEquiv crit b a = true := by
  cases a <;> cases b <;>
    simp only [datumOrEnsembleEquiv, Bool.false_eq_true] at h ⊢
  · exact datumEquiv_symm _ _ _ h
  · exact datumEnsembleEquiv_symm _ _ _ h

theorem datumOrEnsembleEquiv_trans (crit : Criterion) (a b c : DatumOrEnsemble)
    (h₁ : datumOrEnsembleEquiv crit a b = true)
    (h₂ : datumOrEnsembleEquiv crit b c = true) :
    datumOrEnsembleEquiv crit a c = true := by
  cases a <;> cases b <;> cases c <;>
    simp only [datumOrEnsembleEquiv, Bool.false_eq_true] at h₁ h₂ ⊢
  · exact datumEquiv_trans _ _ _ _ h₁ h₂
  · exact datumEnsembleEquiv_trans _ _ _ _ h₁ h₂

theorem axisEquiv_refl (crit : Criterion) (a : Axis) :
    axisEquiv crit a a = true := by
  cases crit <;> simp [axisEquiv, unitEquiv_refl]

theorem axisEquiv_symm (crit : Criterion) (a b : Axis)
    (h : axisEquiv crit a b = true) : axisEquiv crit b a = true := by
  cases crit <;>
    simp only [axisEquiv, Bool.and_eq_true, decide_eq_true_eq] at h ⊢
  · exact h.symm
  · exact ⟨h.1.symm, unitEquiv_symm _ _ _ h.2⟩
  · exact ⟨h.1.symm, unitEquiv_symm _ _ _ h.2⟩

theorem axisEquiv_trans (crit : Criterion) (a b c : Axis)
    (h₁ : axisEquiv crit a b = true) (h₂ : axisEquiv crit b c = true) :
    axisEquiv crit a c = true := by
  cases crit <;>
    simp only [axisEquiv, Bool.and_eq_true, decide_eq_true_eq] at h₁ h₂ ⊢
  · exact h₁.trans h₂
  · exact ⟨h₁.1.trans h₂.1, unitEquiv_trans _ _ _ _ h₁.2 h₂.2⟩
  · exact ⟨h₁.1.trans h₂.1, unitEquiv_trans _ _ _ _ h₁.2 h₂.2⟩

theorem csEquiv_refl (crit : Criterion) (a : CoordinateSystem) :
    csEquiv crit a a = true := by
  simp [csEquiv, allEquiv_refl _ (axisEquiv_refl crit)]

theorem csEquiv_symm (crit : Criterion) (a b : CoordinateSystem)
    (h : csEquiv crit a b = true) : csEquiv crit b a = true := by
  simp only [csEquiv, Bool.and_eq_true, decide_eq_true_eq] at h ⊢
  exact ⟨h.1.symm, allEquiv_symm _ (axisEquiv_symm crit) _ _ h.2⟩

theorem csEquiv_trans (crit : Criterion) (a b c : CoordinateSystem)
    (h₁ : csEquiv crit a b = true) (h₂ : csEquiv crit b c = true) :
    csEquiv crit a c = true := by
  simp only [csEquiv, Bool.and_eq_true, decide_eq_true_eq] at h₁ h₂ ⊢
  exact ⟨h₁.1.trans h₂.1, allEquiv_trans _ (axisEquiv_trans crit) _ _ _ h₁.2 h₂.2⟩

theorem csEquiv_kind (crit : Criterion) (a b : CoordinateSystem)
    (h : csEquiv crit a b = true) : a.kind = b.kind := by
  simp only [csEquiv, Bool.and_eq_true, decide_eq_true_eq] at h
  exact h.1

theorem swapFirstTwo_swapFirstTwo (l : List Axis) :
    swapFirstTwo (swapFirstTwo l) = l := by
  rcases l with _ | ⟨a, _ | ⟨b, rest⟩⟩ <;> rfl

theorem allEquiv_swapFirstTwo (f : Axis → Axis → Bool) (l₁ l₂ : List Axis)
    (h : allEquiv f l₁ l₂ = true) :
    allEquiv f (swapFirstTwo l₁) (swapFirstTwo l₂) = true := by
  rcases l₁ with _ | ⟨a₁, _ | ⟨b₁, r₁⟩⟩ <;> rcases l₂ with _ | ⟨a₂, _ | ⟨b₂, r₂⟩⟩ <;>
    simp_all [allEquiv, swapFirstTwo, Bool.and_eq_true]

theorem csSwapFirstTwo_kind (cs : CoordinateSystem) :
    (csSwapFirstTwo cs).kind = cs.kind := rfl

theorem csSwapFirstTwo_csSwapFirstTwo (cs : CoordinateSystem) :
    csSwapFirstTwo (csSwapFirstTwo cs) = cs := by
  cases cs
  simp [csSwapFirstTwo, swapFirstTwo_swapFirstTwo]

theorem csEquiv_swap_congr (crit : Criterion) (a b : CoordinateSystem)
    (h : csEquiv crit a b = true) :
    csEquiv crit (csSwapFirstTwo a) (csSwapFirstTwo b) = true := by
  simp only [csEquiv, csSwapFirstTwo, Bool.and_eq_true, decide_eq_true_eq] at h ⊢
  exact ⟨h.1, allEquiv_swapFirstTwo _ _ _ h.2⟩

theorem paramValueEquiv_refl (crit : Criterion) (a : ParamValue) :
    paramValueEquiv crit a a = true := by
  cases a <;> simp [paramValueEquiv, unitEquiv_refl]

theorem paramValueEquiv_symm (crit : Criterion) (a b : ParamValue)
    (h : paramValueEquiv crit a b = true) :
    paramValueEquiv crit b a = true := by
  cases a <;> cases b <;>
    simp only [paramValueEquiv, Bool.and_eq_true, decide_eq_true_eq,
      Bool.false_eq_true] at h ⊢
  · exact ⟨h.1.symm, unitEquiv_symm _ _ _ h.2⟩
  · exact h.symm
  · exact h.symm

theorem paramValueEquiv_trans (crit : Criterion) (a b c : ParamValue)
    (h₁ : paramValueEquiv crit a b = true)
    (h₂ : paramValueEquiv crit b c = true) :
    paramValueEquiv crit a c = true := by
  cases a <;> cases b <;> cases c <;>
    simp only [paramValueEquiv, Bool.and_eq_true, decide_eq_true_eq,
      Bool.false_eq_true] at h₁ h₂ ⊢
  · exact ⟨h₁.1.trans h₂.1, unitEquiv_trans _ _ _ _ h₁.2 h₂.2⟩
  · exact h₁.trans h₂
  · exact h₁.trans h₂

theorem paramEquiv_refl (crit : Criterion) (a : OperationParameter) :
    paramEquiv crit a a = true := by
  simp [paramEquiv, paramValueEquiv_refl]

theorem paramEquiv_symm (crit : Criterion) (a b : OperationParameter)
    (h : paramEquiv crit a b = true) : paramEquiv crit b a = true := by
  simp only [paramEquiv, Bool.and_eq_true, decide_eq_true_eq] at h ⊢
  exact ⟨h.1.symm, paramValueEquiv_symm _ _ _ h.2⟩

theorem paramEquiv_trans (crit : Criterion) (a b c : OperationParameter)
    (h₁ : paramEquiv crit a b = true) (h₂ : paramEquiv crit b c = true) :
    paramEquiv crit a c = true := by
  simp only [paramEquiv, Bool.and_eq_true, decide_eq_true_eq] at h₁ h₂ ⊢
  exact ⟨h₁.1.trans h₂.1, paramValueEquiv_trans _ _ _ _ h₁.2 h₂.2⟩

theorem singleOpEquiv_refl (crit : Criterion) (a : SingleOpData) :
    singleOpEquiv crit a a = true := by
  simp [singleOpEquiv, metaEquiv_refl, allEquiv_refl _ (paramEquiv_refl crit)]

theorem singleOpEquiv_symm (crit : Criterion) (a b : SingleOpData)
    (h : singleOpEquiv crit a b = true) : singleOpEquiv crit b a = true := by
  simp only [singleOpEquiv, Bool.and_eq_true, decide_eq_true_eq] at h ⊢
  obtain ⟨⟨hm, hn⟩, hp⟩ := h
  exact ⟨⟨metaEquiv_symm _ _ _ hm, hn.symm⟩,
    allEquiv_symm _ (paramEquiv_symm crit) _ _ hp⟩

theorem singleOpEquiv_trans (crit : Criterion) (a b c : SingleOpData)
    (h₁ : singleOpEquiv crit a b = true) (h₂ : singleOpEquiv crit b c = true) :
    singleOpEquiv crit a c = true := by
  simp only [singleOpEquiv, Bool.and_eq_true, decide_eq_true_eq] at h₁ h₂ ⊢
  obtain ⟨⟨hm₁, hn₁⟩, hp₁⟩ := h₁
  obtain ⟨⟨hm₂, hn₂⟩, hp₂⟩ := h₂
  exact ⟨⟨metaEquiv_trans _ _ _ _ hm₁ hm₂, hn₁.trans hn₂⟩,
    allEquiv_trans _ (paramEquiv_trans crit) _ _ _ hp₁ hp₂⟩

theorem coordOpEquiv_refl (crit : Criterion) (a : CoordinateOperation) :
    coordOpEquiv crit a a = true := by
  cases a <;> simp [coordOpEquiv, singleOpEquiv_refl, metaEquiv_refl,
    allEquiv_refl _ (singleOpEquiv_refl crit)]

theorem coordOpEquiv_symm (crit : Criterion) (a b : CoordinateOperation)
    (h : coordOpEquiv crit a b = true) : coordOpEquiv crit b a = true := by
  cases a <;> cases b <;>
    simp only [coordOpEquiv, Bool.and_eq_true, decide_eq_true_eq,
      Bool.false_eq_true] at h ⊢
  · exact singleOpEquiv_symm _ _ _ h
  · exact ⟨singleOpEquiv_symm _ _ _ h.1, h.2.symm⟩
  · obtain ⟨⟨hm, hs⟩, ha⟩ := h
    exact ⟨⟨metaEquiv_symm _ _ _ hm,
      allEquiv_symm _ (singleOpEquiv_symm crit) _ _ hs⟩, ha.symm⟩

theorem coordOpEquiv_trans (crit : Criterion) (a b c : CoordinateOperation)
    (h₁ : coordOpEquiv crit a b = true) (h₂ : coordOpEquiv crit b c = true) :
    coordOpEquiv crit a c = true := by
  cases a <;> cases b <;> cases c <;>
    simp only [coordOpEquiv, Bool.and_eq_true, decide_eq_true_eq,
      Bool.false_eq_true] at h₁ h₂ ⊢
  · exact singleOpEquiv_trans _ _ _ _ h₁ h₂
  · exact ⟨singleOpEquiv_trans _ _ _ _ h₁.1 h₂.1, h₁.2.trans h₂.2⟩
  · obtain ⟨⟨hm₁, hs₁⟩, ha₁⟩ := h₁
    obtain ⟨⟨hm₂, hs₂⟩, ha₂⟩ := h₂
    exact ⟨⟨metaEquiv_trans _ _ _ _ hm₁ hm₂,
      allEquiv_trans _ (singleOpEquiv_trans crit) _ _ _ hs₁ hs₂⟩,
      ha₁.trans ha₂⟩

/-! ## Equivalence is an equivalence relation on CRS -/

mutual

theorem crsEquiv_refl (crit : Criterion) (a : CRS) :
    crsEquiv crit a a = true := by
  cases a with
  | geodetic m d cs =>
      simp [crsEquiv, metaEquiv_refl, datumOrEnsembleEquiv_refl, csEquiv_refl]
  | vertical m d cs =>
      simp [crsEquiv, metaEquiv_refl, datumOrEnsembleEquiv_refl, csEquiv_refl]
  | projected m b c cs =>
      simp [crsEquiv, metaEquiv_refl, crsEquiv_refl crit b, singleOpEquiv_refl,
        csEquiv_refl]
  | compound m c =>
      simp [crsEquiv, metaEquiv_refl, crsListEquiv_refl crit c]
  | bound m b h t =>
      simp [crsEquiv, metaEquiv_refl, crsEquiv_refl crit b, crsEquiv_refl crit h,
        singleOpEquiv_refl]
  | engineering m d cs =>
      simp [crsEquiv, metaEquiv_refl, datumEquiv_refl, csEquiv_refl]
  | temporal m cs =>
      simp [crsEquiv, metaEquiv_refl, csEquiv_refl]

theorem crsListEquiv_refl (crit : Criterion) (l : CRSList) :
    crsListEquiv crit l l = true := by
  cases l with
  | nil => rfl
  | cons x xs =>
      simp [crsListEquiv, crsEquiv_refl crit x, crsListEquiv_refl crit xs]

end

mutual

theorem crsEquiv_symm (crit : Criterion) (a b : CRS)
    (h : crsEquiv crit a b = true) : crsEquiv crit b a = true := by
  cases a <;> cases b <;>
    simp only [crsEquiv, Bool.and_eq_true, Bool.or_eq_true, decide_eq_true_eq,
      Bool.false_eq_true] at h ⊢
  case geodetic.geodetic m₁ d₁ cs₁ m₂ d₂ cs₂ =>
    obtain ⟨⟨hm, hd⟩, hcs⟩ := h
    refine ⟨⟨metaEquiv_symm _ _ _ hm, datumOrEnsembleEquiv_symm _ _ _ hd⟩, ?_⟩
    rcases hcs with hcs | ⟨⟨hc, hk⟩, hcs⟩
    · exact Or.inl (csEquiv_symm _ _ _ hcs)
    · refine Or.inr ⟨⟨hc, ?_⟩, ?_⟩
      · have := csEquiv_kind _ _ _ hcs
        rw [csSwapFirstTwo_kind] at this
        rw [← this, hk]
      · have h' := csEquiv_swap_congr _ _ _ (csEquiv_symm _ _ _ hcs)
        rwa [csSwapFirstTwo_csSwapFirstTwo] at h'
  case vertical.vertical m₁ d₁ cs₁ m₂ d₂ cs₂ =>
    obtain ⟨⟨hm, hd⟩, hcs⟩ := h
    exact ⟨⟨metaEquiv_symm _ _ _ hm, datumOrEnsembleEquiv_symm _ _ _ hd⟩,
      csEquiv_symm _ _ _ hcs⟩
  case projected.projected m₁ b₁ c₁ cs₁ m₂ b₂ c₂ cs₂ =>
    obtain ⟨⟨⟨hm, hb⟩, hc⟩, hcs⟩ := h
    exact ⟨⟨⟨metaEquiv_symm _ _ _ hm, crsEquiv_symm crit b₁ b₂ hb⟩,
      singleOpEquiv_symm _ _ _ hc⟩, csEquiv_symm _ _ _ hcs⟩
  case compound.compound m₁ c₁ m₂ c₂ =>
    obtain ⟨hm, hc⟩ := h
    exact ⟨metaEquiv_symm _ _ _ hm, crsListEquiv_symm crit c₁ c₂ hc⟩
  case bound.bound m₁ b₁ hub₁ t₁ m₂ b₂ hub₂ t₂ =>
    obtain ⟨⟨⟨hm, hb⟩, hh⟩, ht⟩ := h
    exact ⟨⟨⟨metaEquiv_symm _ _ _ hm, crsEquiv_symm crit b₁ b₂ hb⟩,
      crsEquiv_symm crit hub₁ hub₂ hh⟩, singleOpEquiv_symm _ _ _ ht⟩
  case engineering.engineering m₁ d₁ cs₁ m₂ d₂ cs₂ =>
    obtain ⟨⟨hm, hd⟩, hcs⟩ := h
    exact ⟨⟨metaEquiv_symm _ _ _ hm, datumEquiv_symm _ _ _ hd⟩,
      csEquiv_symm _ _ _ hcs⟩
  case temporal.temporal m₁ cs₁ m₂ cs₂ =>
    obtain ⟨hm, hcs⟩ := h
    exact ⟨metaEquiv_symm _ _ _ hm, csEquiv_symm _ _ _ hcs⟩

theorem crsListEquiv_symm (crit : Criterion) (l₁ l₂ : CRSList)
    (h : crsListEquiv crit l₁ l₂ = true) : crsListEquiv crit l₂ l₁ = true := by
  cases l₁ <;> cases l₂ <;>
    simp only [crsListEquiv, Bool.and_eq_true, Bool.false_eq_true] at h ⊢
  case cons.cons x xs y ys =>
    exact ⟨crsEquiv_symm crit x y h.1, crsListEquiv_symm crit xs ys h.2⟩

end

mutual

theorem crsEquiv_trans (crit : Criterion) (a b c : CRS)
    (h₁ : crsEquiv crit a b = true) (h₂ : crsEquiv crit b c = true) :
    crsEquiv crit a c = true := by
  cases a <;> cases b <;>
    (try simp only [crsEquiv, Bool.false_eq_true] at h₁) <;> cases c <;>
    (try simp only [crsEquiv, Bool.false_eq_true] at h₂) <;>
    simp only [crsEquiv, Bool.and_eq_true, Bool.or_eq_true, decide_eq_true_eq] at h₁ h₂ ⊢
  case geodetic.geodetic.geodetic m₁ d₁ cs₁ m₂ d₂ cs₂ m₃ d₃ cs₃ =>
    obtain ⟨⟨hm₁, hd₁⟩, hcs₁⟩ := h₁
    obtain ⟨⟨hm₂, hd₂⟩, hcs₂⟩ := h₂
    refine ⟨⟨metaEquiv_trans _ _ _ _ hm₁ hm₂,
      datumOrEnsembleEquiv_trans _ _ _ _ hd₁ hd₂⟩, ?_⟩
    rcases hcs₁ with hcs₁ | ⟨⟨hc₁, hk₁⟩, hcs₁⟩ <;>
      rcases hcs₂ with hcs₂ | ⟨⟨hc₂, hk₂⟩, hcs₂⟩
    · exact Or.inl (csEquiv_trans _ _ _ _ hcs₁ hcs₂)
    · refine Or.inr ⟨⟨hc₂, ?_⟩, csEquiv_trans _ _ _ _ hcs₁ hcs₂⟩
      rw [csEquiv_kind _ _ _ hcs₁, hk₂]
    · exact Or.inr ⟨⟨hc₁, hk₁⟩,
        csEquiv_trans _ _ _ _ hcs₁ (csEquiv_swap_congr _ _ _ hcs₂)⟩
    · refine Or.inl (csEquiv_trans _ _ _ _ hcs₁ ?_)
      have h' := csEquiv_swap_congr _ _ _ hcs₂
      rwa [csSwapFirstTwo_csSwapFirstTwo] at h'
  case vertical.vertical.vertical m₁ d₁ cs₁ m₂ d₂ cs₂ m₃ d₃ cs₃ =>
    obtain ⟨⟨hm₁, hd₁⟩, hcs₁⟩ := h₁
    obtain ⟨⟨hm₂, hd₂⟩, hcs₂⟩ := h₂
    exact ⟨⟨metaEquiv_trans _ _ _ _ hm₁ hm₂,
      datumOrEnsembleEquiv_trans _ _ _ _ hd₁ hd₂⟩,
      csEquiv_trans _ _ _ _ hcs₁ hcs₂⟩
  case projected.projected.projected m₁ b₁ c₁ cs₁ m₂ b₂ c₂ cs₂ m₃ b₃ c₃ cs₃ =>
    obtain ⟨⟨⟨hm₁, hb₁⟩, hc₁⟩, hcs₁⟩ := h₁
    obtain ⟨⟨⟨hm₂, hb₂⟩, hc₂⟩, hcs₂⟩ := h₂
    exact ⟨⟨⟨metaEquiv_trans _ _ _ _ hm₁ hm₂, crsEquiv_trans crit b₁ b₂ b₃ hb₁ hb₂⟩,
      singleOpEquiv_trans _ _ _ _ hc₁ hc₂⟩, csEquiv_trans _ _ _ _ hcs₁ hcs₂⟩
  case compound.compound.compound m₁ c₁ m₂ c₂ m₃ c₃ =>
    obtain ⟨hm₁, hc₁⟩ := h₁
    obtain ⟨hm₂, hc₂⟩ := h₂
    exact ⟨metaEquiv_trans _ _ _ _ hm₁ hm₂,
      crsListEquiv_trans crit c₁ c₂ c₃ hc₁ hc₂⟩
  case bound.bound.bound m₁ b₁ hub₁ t₁ m₂ b₂ hub₂ t₂ m₃ b₃ hub₃ t₃ =>
    obtain ⟨⟨⟨hm₁, hb₁⟩, hh₁⟩, ht₁⟩ := h₁
    obtain ⟨⟨⟨hm₂, hb₂⟩, hh₂⟩, ht₂⟩ := h₂
    exact ⟨⟨⟨metaEquiv_trans _ _ _ _ hm₁ hm₂, crsEquiv_trans crit b₁ b₂ b₃ hb₁ hb₂⟩,
      crsEquiv_trans crit hub₁ hub₂ hub₃ hh₁ hh₂⟩,
      singleOpEquiv_trans _ _ _ _ ht₁ ht₂⟩
  case engineering.engineering.engineering m₁ d₁ cs₁ m₂ d₂ cs₂ m₃ d₃ cs₃ =>
    obtain ⟨⟨hm₁, hd₁⟩, hcs₁⟩ := h₁
    obtain ⟨⟨hm₂, hd₂⟩, hcs₂⟩ := h₂
    exact ⟨⟨metaEquiv_trans _ _ _ _ hm₁ hm₂, datumEquiv_trans _ _ _ _ hd₁ hd₂⟩,
      csEquiv_trans _ _ _ _ hcs₁ hcs₂⟩
  case temporal.temporal.temporal m₁ cs₁ m₂ cs₂ m₃ cs₃ =>
    obtain ⟨hm₁, hcs₁⟩ := h₁
    obtain ⟨hm₂, hcs₂⟩ := h₂
    exact ⟨metaEquiv_trans _ _ _ _ hm₁ hm₂, csEquiv_trans _ _ _ _ hcs₁ hcs₂⟩

theorem crsListEquiv_trans (crit : Criterion) (l₁ l₂ l₃ : CRSList)
    (h₁ : crsListEquiv crit l₁ l₂ = true) (h₂ : crsListEquiv crit l₂ l₃ = true) :
    crsListEquiv crit l₁ l₃ = true := by
  cases l₁ <;> cases l₂ <;>
    (try simp only [crsListEquiv, Bool.false_eq_true] at h₁) <;> cases l₃ <;>
    (try simp only [crsListEquiv, Bool.false_eq_true] at h₂) <;>
    simp only [crsListEquiv, Bool.and_eq_true] at h₁ h₂ ⊢
  case cons.cons.cons x xs y ys z zs =>
    exact ⟨crsEquiv_trans crit x y z h₁.1 h₂.1,
      crsListEquiv_trans crit xs ys zs h₁.2 h₂.2⟩

end

theorem objEquiv_refl (crit : Criterion) (a : IdentifiedObject) :
    objEquiv crit a a = true := by
  cases a <;> simp [objEquiv, crsEquiv_refl, coordOpEquiv_refl,
    ellipsoidEquiv_refl, primeMeridianEquiv_refl, datumEquiv_refl]

theorem objEquiv_symm (crit : Criterion) (a b : IdentifiedObject)
    (h : objEquiv crit a b = true) : objEquiv crit b a = true := by
  cases a <;> cases b <;>
    simp only [objEquiv, Bool.false_eq_true] at h ⊢
  · exact crsEquiv_symm _ _ _ h
  · exact coordOpEquiv_symm _ _ _ h
  · exact ellipsoidEquiv_symm _ _ _ h
  · exact primeMeridianEquiv_symm _ _ _ h
  · exact datumEquiv_symm _ _ _ h

theorem objEquiv_trans (crit : Criterion) (a b c : IdentifiedObject)
    (h₁ : objEquiv crit a b = true) (h₂ : objEquiv crit b c = true) :
    objEquiv crit a c = true := by
  cases a <;> cases b <;>
    (try simp only [objEquiv, Bool.false_eq_true] at h₁) <;> cases c <;>
    (try simp only [objEquiv, Bool.false_eq_true] at h₂) <;>
    simp only [objEquiv] at h₁ h₂ ⊢
  · exact crsEquiv_trans _ _ _ _ h₁ h₂
  · exact coordOpEquiv_trans _ _ _ _ h₁ h₂
  · exact ellipsoidEquiv_trans _ _ _ _ h₁ h₂
  · exact primeMeridianEquiv_trans _ _ _ _ h₁ h₂
  · exact datumEquiv_trans _ _ _ _ h₁ h₂

/-! ## Codec round-trip: component lemmas -/

theorem categoryOfTag_categoryTag (c : UnitCategory) :
    categoryOfTag (categoryTag c) = some c := by
  cases c <;> rfl

theorem unitOfWKT_unitToWKT (u : UnitOfMeasure) :
    unitOfWKT (unitToWKT u) = some u := by
  cases u
  simp [unitToWKT, unitOfWKT, categoryOfTag_categoryTag]

theorem idOfWKT_idToWKT (i : Identifier) : idOfWKT (idToWKT i) = some i := by
  cases i
  simp [idToWKT, idOfWKT]

theorem boolOfWKT_boolToWKT (b : Bool) : boolOfWKT (boolToWKT b) = some b := by
  cases b <;> simp [boolToWKT, boolOfWKT]

theorem listOfWKT_wktOfList (g : WKT → Option α) (f : α → WKT)
    (hf : ∀ a, g (f a) = some a) :
    ∀ l, listOfWKT g (wktOfList f l) = some l := by
  intro l
  induction l with
  | nil => rfl
  | cons x xs ih => simp [wktOfList, listOfWKT, hf x, ih]

theorem optStrOfTail_optStrTail (o : Option String) :
    optStrOfTail (optStrTail o) = some o := by
  cases o <;> rfl

theorem optNumOfTail_optNumTail (o : Option ℚ) :
    optNumOfTail (optNumTail o) = some o := by
  cases o <;> rfl

theorem metaOfWKT_metaToWKT (m : Metadata) :
    metaOfWKT (metaToWKT m) = some m := by
  cases m
  simp [metaToWKT, metaOfWKT, listOfWKT_wktOfList _ _ idOfWKT_idToWKT,
    boolOfWKT_boolToWKT, optStrOfTail_optStrTail]

theorem ellipsoidOfWKT_ellipsoidToWKT (e : Ellipsoid) :
    ellipsoidOfWKT (ellipsoidToWKT e) = some e := by
  cases e
  simp [ellipsoidToWKT, ellipsoidOfWKT, metaOfWKT_metaToWKT,
    unitOfWKT_unitToWKT, optNumOfTail_optNumTail]

theorem ellipsoidOfWKT_ellipsoidToWKT1 (e : Ellipsoid) :
    ellipsoidOfWKT (ellipsoidToWKT1 e) = some e.strip := by
  cases e
  simp [ellipsoidToWKT1, ellipsoidOfWKT, unitOfWKT_unitToWKT,
    optNumOfTail_optNumTail, Ellipsoid.strip, Metadata.strip, nameOnlyMeta]

theorem pmOfWKT_pmToWKT (p : PrimeMeridian) :
    pmOfWKT (pmToWKT p) = some p := by
  cases p with
  | mk m l u =>
      cases m
      simp [pmToWKT, metaToWKT, pmOfWKT, metaOfWKT,
        listOfWKT_wktOfList _ _ idOfWKT_idToWKT, boolOfWKT_boolToWKT,
        optStrOfTail_optStrTail, unitOfWKT_unitToWKT]

theorem pmOfWKT_pmToWKT1 (p : PrimeMeridian) :
    pmOfWKT (pmToWKT1 p) = some p.strip := by
  cases p
  simp [pmToWKT1, pmOfWKT, unitOfWKT_unitToWKT, PrimeMeridian.strip,
    Metadata.strip, nameOnlyMeta]

theorem datumOfWKT_datumToWKT (d : Datum) :
    datumOfWKT (datumToWKT d) = some d := by
  cases d with
  | geodeticFrame m e p f =>
      cases m
      simp [datumToWKT, metaToWKT, datumOfWKT, metaOfWKT,
        listOfWKT_wktOfList _ _ idOfWKT_idToWKT, boolOfWKT_boolToWKT,
        optStrOfTail_optStrTail, ellipsoidOfWKT_ellipsoidToWKT,
        pmOfWKT_pmToWKT, optNumOfTail_optNumTail]
  | verticalFrame m f =>
      cases m
      simp [datumToWKT, metaToWKT, datumOfWKT, metaOfWKT,
        listOfWKT_wktOfList _ _ idOfWKT_idToWKT, boolOfWKT_boolToWKT,
        optStrOfTail_optStrTail, optNumOfTail_optNumTail]
  | engineeringDatum m =>
      cases m
      simp [datumToWKT, metaToWKT, datumOfWKT, metaOfWKT,
        listOfWKT_wktOfList _ _ idOfWKT_idToWKT, boolOfWKT_boolToWKT,
        optStrOfTail_optStrTail]

theorem datumOfWKT_datumToWKT1 (d : Datum) :
    datumOfWKT (datumToWKT1 d) = some d.strip := by
  cases d with
  | geodeticFrame m e p f =>
      simp [datumToWKT1, datumOfWKT, ellipsoidOfWKT_ellipsoidToWKT1,
        pmOfWKT_pmToWKT1, optNumOfTail_optNumTail, Datum.strip,
        Metadata.strip, nameOnlyMeta]
  | verticalFrame m f =>
      simp [datumToWKT1, datumOfWKT, optNumOfTail_optNumTail, Datum.strip,
        Metadata.strip, nameOnlyMeta]
  | engineeringDatum m =>
      simp [datumToWKT1, datumOfWKT, Datum.strip, Metadata.strip, nameOnlyMeta]

theorem ensembleOfWKT_ensembleToWKT (e : DatumEnsemble) :
    ensembleOfWKT (ensembleToWKT e) = some e := by
  cases e
  simp [ensembleToWKT, ensembleOfWKT, metaOfWKT_metaToWKT,
    listOfWKT_wktOfList _ _ datumOfWKT_datumToWKT]

theorem datumToWKT_keyword (d : Datum) :
    wktKeywordOf (datumToWKT d) ≠ "ENSEMBLE" := by
  cases d <;> simp [datumToWKT, wktKeywordOf]

theorem ensembleToWKT_keyword (e : DatumEnsemble) :
    wktKeywordOf (ensembleToWKT e) = "ENSEMBLE" := rfl

theorem doeOfWKT_doeToWKT (d : DatumOrEnsemble) :
    doeOfWKT (doeToWKT d) = some d := by
  cases d with
  | datum dd =>
      simp [doeToWKT, doeOfWKT, datumToWKT_keyword dd, datumOfWKT_datumToWKT]
  | ensemble e =>
      simp [doeToWKT, doeOfWKT, ensembleToWKT_keyword e,
        ensembleOfWKT_ensembleToWKT]

theorem directionOfTag_directionTag (d : AxisDirection) :
    directionOfTag (directionTag d) = some d := by
  cases d <;> rfl

theorem axisOfWKT_axisToWKT (a : Axis) : axisOfWKT (axisToWKT a) = some a := by
  cases a
  simp [axisToWKT, axisOfWKT, directionOfTag_directionTag, unitOfWKT_unitToWKT]

theorem csKindOfTag_csKindTag (k : CSKind) :
    csKindOfTag (csKindTag k) = some k := by
  cases k <;> rfl

theorem csOfWKT_csToWKT (cs : CoordinateSystem) :
    csOfWKT (csToWKT cs) = some cs := by
  cases cs
  simp [csToWKT, csOfWKT, csKindOfTag_csKindTag,
    listOfWKT_wktOfList _ _ axisOfWKT_axisToWKT]

theorem paramValueOfWKT_paramValueToWKT (v : ParamValue) :
    paramValueOfWKT (paramValueToWKT v) = some v := by
  cases v <;> simp [paramValueToWKT, paramValueOfWKT, unitOfWKT_unitToWKT]

theorem paramOfWKT_paramToWKT (p : OperationParameter) :
    paramOfWKT (paramToWKT p) = some p := by
  cases p
  simp [paramToWKT, paramOfWKT, paramValueOfWKT_paramValueToWKT]

theorem singleOpOfWKT_singleOpToWKT (d : SingleOpData) :
    singleOpOfWKT (singleOpToWKT d) = some d := by
  cases d
  simp [singleOpToWKT, singleOpOfWKT, metaOfWKT_metaToWKT,
    listOfWKT_wktOfList _ _ paramOfWKT_paramToWKT]

theorem singleOpOfWKT_singleOpToWKT1 (d : SingleOpData) :
    singleOpOfWKT (singleOpToWKT1 d) = some d.strip := by
  cases d
  simp [singleOpToWKT1, singleOpOfWKT,
    listOfWKT_wktOfList _ _ paramOfWKT_paramToWKT, SingleOpData.strip,
    Metadata.strip, nameOnlyMeta]

theorem strOfWKT_str (s : String) : strOfWKT (WKT.str s) = some s := rfl

theorem coordOpOfWKT_coordOpToWKT (op : CoordinateOperation) :
    coordOpOfWKT (coordOpToWKT op) = some op := by
  cases op with
  | conversion d =>
      cases d with
      | mk m method params =>
          simp [coordOpToWKT, singleOpToWKT, coordOpOfWKT, singleOpOfWKT,
            metaOfWKT_metaToWKT, listOfWKT_wktOfList _ _ paramOfWKT_paramToWKT]
  | transformation d accs =>
      simp [coordOpToWKT, coordOpOfWKT, singleOpOfWKT_singleOpToWKT,
        listOfWKT_wktOfList _ _ strOfWKT_str]
  | concatenated m steps accs =>
      simp [coordOpToWKT, coordOpOfWKT, metaOfWKT_metaToWKT,
        listOfWKT_wktOfList _ _ singleOpOfWKT_singleOpToWKT,
        listOfWKT_wktOfList _ _ strOfWKT_str]

/-! ## Codec round-trip on CRS -/

/- Definitional bridge lemmas for the keyword dispatch of `crsOfWKT` and
the argument shapes of its helpers. -/

theorem crsOfWKT_geodcrs (args : WKTList) :
    crsOfWKT (.node "GEODCRS" args) = geodcrsFromArgs args := rfl

theorem crsOfWKT_geogcs (args : WKTList) :
    crsOfWKT (.node "GEOGCS" args) = geogcsFromArgs args := rfl

theorem crsOfWKT_vertcrs (args : WKTList) :
    crsOfWKT (.node "VERTCRS" args) = vertcrsFromArgs args := rfl

theorem crsOfWKT_vertcs1 (args : WKTList) :
    crsOfWKT (.node "VERT_CS" args) = vertcs1FromArgs args := rfl

theorem crsOfWKT_projcrs (args : WKTList) :
    crsOfWKT (.node "PROJCRS" args) = projcrsFromArgs args := rfl

theorem crsOfWKT_projcs1 (args : WKTList) :
    crsOfWKT (.node "PROJCS" args) = projcs1FromArgs args := rfl

theorem crsOfWKT_compoundcrs (args : WKTList) :
    crsOfWKT (.node "COMPOUNDCRS" args) = compoundcrsFromArgs args := rfl

theorem crsOfWKT_compdcs1 (args : WKTList) :
    crsOfWKT (.node "COMPD_CS" args) = compdcs1FromArgs args := rfl

theorem crsOfWKT_boundcrs (args : WKTList) :
    crsOfWKT (.node "BOUNDCRS" args) = boundcrsFromArgs args := rfl

theorem crsOfWKT_engcrs (args : WKTList) :
    crsOfWKT (.node "ENGCRS" args) = engcrsFromArgs args := rfl

theorem crsOfWKT_localcs1 (args : WKTList) :
    crsOfWKT (.node "LOCAL_CS" args) = localcs1FromArgs args := rfl

theorem crsOfWKT_timecrs (args : WKTList) :
    crsOfWKT (.node "TIMECRS" args) = timecrsFromArgs args := rfl

theorem geodcrsFromArgs_cons (mw dw csw : WKT) :
    geodcrsFromArgs (.cons mw (.cons dw (.cons csw .nil))) =
      match metaOfWKT mw, doeOfWKT dw, csOfWKT csw with
      | some m, some d, some cs => some (.geodetic m d cs)
      | _, _, _ => none := rfl

theorem geogcsFromArgs_cons (n : String) (dw csw : WKT) :
    geogcsFromArgs (.cons (.str n) (.cons dw (.cons csw .nil))) =
      match datumOfWKT dw, csOfWKT csw with
      | some d, some cs => some (.geodetic (nameOnlyMeta n) (.datum d) cs)
      | _, _ => none := rfl

theorem vertcrsFromArgs_cons (mw dw csw : WKT) :
    vertcrsFromArgs (.cons mw (.cons dw (.cons csw .nil))) =
      match metaOfWKT mw, doeOfWKT dw, csOfWKT csw with
      | some m, some d, some cs => some (.vertical m d cs)
      | _, _, _ => none := rfl

theorem vertcs1FromArgs_cons (n : String) (dw csw : WKT) :
    vertcs1FromArgs (.cons (.str n) (.cons dw (.cons csw .nil))) =
      match datumOfWKT dw, csOfWKT csw with
      | some d, some cs => some (.vertical (nameOnlyMeta n) (.datum d) cs)
      | _, _ => none := rfl

theorem projcrsFromArgs_cons (mw bw cw csw : WKT) :
    projcrsFromArgs (.cons mw (.cons bw (.cons cw (.cons csw .nil)))) =
      match metaOfWKT mw, crsOfWKT bw, singleOpOfWKT cw, csOfWKT csw with
      | some m, some b, some c, some cs => some (.projected m b c cs)
      | _, _, _, _ => none := rfl

theorem projcs1FromArgs_cons (n : String) (bw cw csw : WKT) :
    projcs1FromArgs (.cons (.str n) (.cons bw (.cons cw (.cons csw .nil)))) =
      match crsOfWKT bw, singleOpOfWKT cw, csOfWKT csw with
      | some b, some c, some cs => some (.projected (nameOnlyMeta n) b c cs)
      | _, _, _ => none := rfl

theorem compoundcrsFromArgs_cons (mw : WKT) (comps : WKTList) :
    compoundcrsFromArgs (.cons mw (.cons (.node "COMPONENTS" comps) .nil)) =
      match metaOfWKT mw, crsListOfWKT comps with
      | some m, some cl => some (.compound m cl)
      | _, _ => none := rfl

theorem compdcs1FromArgs_cons (n : String) (comps : WKTList) :
    compdcs1FromArgs (.cons (.str n) (.cons (.node "COMPONENTS" comps) .nil)) =
      (crsListOfWKT comps).map fun cl => .compound (nameOnlyMeta n) cl := rfl

theorem boundcrsFromArgs_cons (mw bw hw tw : WKT) :
    boundcrsFromArgs (.cons mw (.cons bw (.cons hw (.cons tw .nil)))) =
      match metaOfWKT mw, crsOfWKT bw, crsOfWKT hw, singleOpOfWKT tw with
      | some m, some b, some h, some t => some (.bound m b h t)
      | _, _, _, _ => none := rfl

theorem engcrsFromArgs_cons (mw dw csw : WKT) :
    engcrsFromArgs (.cons mw (.cons dw (.cons csw .nil))) =
      match metaOfWKT mw, datumOfWKT dw, csOfWKT csw with
      | some m, some d, some cs => some (.engineering m d cs)
      | _, _, _ => none := rfl

theorem localcs1FromArgs_cons (n : String) (dw csw : WKT) :
    localcs1FromArgs (.cons (.str n) (.cons dw (.cons csw .nil))) =
      match datumOfWKT dw, csOfWKT csw with
      | some d, some cs => some (.engineering (nameOnlyMeta n) d cs)
      | _, _ => none := rfl

theorem timecrsFromArgs_cons (mw csw : WKT) :
    timecrsFromArgs (.cons mw (.cons csw .nil)) =
      match metaOfWKT mw, csOfWKT csw with
      | some m, some cs => some (.temporal m cs)
      | _, _ => none := rfl

theorem crsListOfWKT_nil : crsListOfWKT .nil = some .nil := rfl

theorem crsListOfWKT_cons (w : WKT) (tl : WKTList) :
    crsListOfWKT (.cons w tl) =
      match crsOfWKT w, crsListOfWKT tl with
      | some c, some cs => some (.cons c cs)
      | _, _ => none := rfl

mutual

theorem crsOfWKT_crsToWKT (c : CRS) : crsOfWKT (crsToWKT c) = some c := by
  cases c with
  | geodetic m d cs =>
      simp only [crsToWKT]
      rw [crsOfWKT_geodcrs, geodcrsFromArgs_cons, metaOfWKT_metaToWKT,
        doeOfWKT_doeToWKT, csOfWKT_csToWKT]
  | vertical m d cs =>
      simp only [crsToWKT]
      rw [crsOfWKT_vertcrs, vertcrsFromArgs_cons, metaOfWKT_metaToWKT,
        doeOfWKT_doeToWKT, csOfWKT_csToWKT]
  | projected m b c cs =>
      simp only [crsToWKT]
      rw [crsOfWKT_projcrs, projcrsFromArgs_cons, metaOfWKT_metaToWKT,
        crsOfWKT_crsToWKT b, singleOpOfWKT_singleOpToWKT, csOfWKT_csToWKT]
  | compound m comps =>
      simp only [crsToWKT]
      rw [crsOfWKT_compoundcrs, compoundcrsFromArgs_cons, metaOfWKT_metaToWKT,
        crsListOfWKT_crsListToWKT comps]
  | bound m b h t =>
      simp only [crsToWKT]
      rw [crsOfWKT_boundcrs, boundcrsFromArgs_cons, metaOfWKT_metaToWKT,
        crsOfWKT_crsToWKT b, crsOfWKT_crsToWKT h, singleOpOfWKT_singleOpToWKT]
  | engineering m d cs =>
      simp only [crsToWKT]
      rw [crsOfWKT_engcrs, engcrsFromArgs_cons, metaOfWKT_metaToWKT,
        datumOfWKT_datumToWKT, csOfWKT_csToWKT]
  | temporal m cs =>
      simp only [crsToWKT]
      rw [crsOfWKT_timecrs, timecrsFromArgs_cons, metaOfWKT_metaToWKT,
        csOfWKT_csToWKT]

theorem crsListOfWKT_crsListToWKT (l : CRSList) :
    crsListOfWKT (crsListToWKT l) = some l := by
  cases l with
  | nil => rfl
  | cons c tl =>
      simp only [crsListToWKT]
      rw [crsListOfWKT_cons, crsOfWKT_crsToWKT c, crsListOfWKT_crsListToWKT tl]

end

mutual

theorem crsOfWKT_crsToWKT1 (c : CRS) :
    ∀ w, crsToWKT1 c = some w → crsOfWKT w = some c.strip := by
  cases c with
  | geodetic m d cs =>
      cases d with
      | datum dd =>
          intro w h
          simp [crsToWKT1] at h
          subst h
          rw [crsOfWKT_geogcs, geogcsFromArgs_cons, datumOfWKT_datumToWKT1,
            csOfWKT_csToWKT]
          simp [CRS.strip, Metadata.strip]
      | ensemble e => intro w h; simp [crsToWKT1] at h
  | vertical m d cs =>
      cases d with
      | datum dd =>
          intro w h
          simp [crsToWKT1] at h
          subst h
          rw [crsOfWKT_vertcs1, vertcs1FromArgs_cons, datumOfWKT_datumToWKT1,
            csOfWKT_csToWKT]
          simp [CRS.strip, Metadata.strip]
      | ensemble e => intro w h; simp [crsToWKT1] at h
  | projected m b c cs =>
      intro w h
      simp only [crsToWKT1, Option.map_eq_some'] at h
      obtain ⟨bw, hb, rfl⟩ := h
      rw [crsOfWKT_projcs1, projcs1FromArgs_cons, crsOfWKT_crsToWKT1 b bw hb,
        singleOpOfWKT_singleOpToWKT1, csOfWKT_csToWKT]
      simp [CRS.strip, Metadata.strip]
  | compound m comps =>
      intro w h
      simp only [crsToWKT1, Option.map_eq_some'] at h
      obtain ⟨cw, hc, rfl⟩ := h
      rw [crsOfWKT_compdcs1, compdcs1FromArgs_cons,
        crsListOfWKT_crsListToWKT1 comps cw hc]
      simp [CRS.strip, Metadata.strip]
  | bound m b h t => intro w hw; simp [crsToWKT1] at hw
  | engineering m d cs =>
      intro w h
      simp [crsToWKT1] at h
      subst h
      rw [crsOfWKT_localcs1, localcs1FromArgs_cons, datumOfWKT_datumToWKT1,
        csOfWKT_csToWKT]
      simp [CRS.strip, Metadata.strip]
  | temporal m cs => intro w h; simp [crsToWKT1] at h

theorem crsListOfWKT_crsListToWKT1 (l : CRSList) :
    ∀ wl, crsListToWKT1 l = some wl → crsListOfWKT wl = some l.strip := by
  cases l with
  | nil =>
      intro wl h
      simp [crsListToWKT1] at h
      subst h
      rfl
  | cons c tl =>
      intro wl h
      simp only [crsListToWKT1] at h
      cases hcw : crsToWKT1 c with
      | none => rw [hcw] at h; simp at h
      | some cw =>
          cases htl : crsListToWKT1 tl with
          | none => rw [hcw, htl] at h; simp at h
          | some ws =>
              rw [hcw, htl] at h
              simp at h
              subst h
              rw [crsListOfWKT_cons, crsOfWKT_crsToWKT1 c cw hcw,
                crsListOfWKT_crsListToWKT1 tl ws htl]
              simp [CRSList.strip]

end

/-! ## Stripped entities are Equivalent to the originals -/

theorem ellipsoidEquiv_strip (e : Ellipsoid) :
    ellipsoidEquiv .equivalent e.strip e = true := by
  simp [Ellipsoid.strip, ellipsoidEquiv, metaEquiv, unitEquiv_refl]

theorem pmEquiv_strip (p : PrimeMeridian) :
    primeMeridianEquiv .equivalent p.strip p = true := by
  simp [PrimeMeridian.strip, primeMeridianEquiv, metaEquiv, unitEquiv_refl]

theorem datumEquiv_strip (d : Datum) :
    datumEquiv .equivalent d.strip d = true := by
  cases d <;>
    simp [Datum.strip, datumEquiv, metaEquiv, ellipsoidEquiv_strip,
      pmEquiv_strip]

theorem singleOpEquiv_strip (d : SingleOpData) :
    singleOpEquiv .equivalent d.strip d = true := by
  simp [SingleOpData.strip, singleOpEquiv, metaEquiv,
    allEquiv_refl _ (paramEquiv_refl _)]

mutual

theorem crsEquiv_strip (c : CRS) :
    crsEquiv .equivalent c.strip c = true := by
  cases c with
  | geodetic m d cs =>
      cases d with
      | datum dd =>
          simp [CRS.strip, crsEquiv, metaEquiv, datumOrEnsembleEquiv,
            datumEquiv_strip, csEquiv_refl]
      | ensemble e =>
          simp [CRS.strip, crsEquiv, metaEquiv, datumOrEnsembleEquiv,
            datumEnsembleEquiv_refl, csEquiv_refl]
  | vertical m d cs =>
      cases d with
      | datum dd =>
          simp [CRS.strip, crsEquiv, metaEquiv, datumOrEnsembleEquiv,
            datumEquiv_strip, csEquiv_refl]
      | ensemble e =>
          simp [CRS.strip, crsEquiv, metaEquiv, datumOrEnsembleEquiv,
            datumEnsembleEquiv_refl, csEquiv_refl]
  | projected m b c cs =>
      simp [CRS.strip, crsEquiv, metaEquiv, crsEquiv_strip b,
        singleOpEquiv_strip, csEquiv_refl]
  | compound m comps =>
      simp [CRS.strip, crsEquiv, metaEquiv, crsListEquiv_strip comps]
  | bound m b h t =>
      simp [CRS.strip, crsEquiv, metaEquiv, crsEquiv_strip b, crsEquiv_strip h,
        singleOpEquiv_strip]
  | engineering m d cs =>
      simp [CRS.strip, crsEquiv, metaEquiv, datumEquiv_strip, csEquiv_refl]
  | temporal m cs =>
      simp [CRS.strip, crsEquiv, metaEquiv, csEquiv_refl]

theorem crsListEquiv_strip (l : CRSList) :
    crsListEquiv .equivalent (CRSList.strip l) l = true := by
  cases l with
  | nil => rfl
  | cons c tl =>
      simp [CRSList.strip, crsListEquiv, crsEquiv_strip c,
        crsListEquiv_strip tl]

end

theorem objEquiv_strip (obj : IdentifiedObject) :
    objEquiv .equivalent obj.strip obj = true := by
  cases obj <;>
    simp [IdentifiedObject.strip, objEquiv, crsEquiv_strip, coordOpEquiv_refl,
      ellipsoidEquiv_strip, pmEquiv_strip, datumEquiv_strip]

/-! ## Codec round-trip at the entity level -/

theorem crsToWKT_kw (c : CRS) : wktKeywordOf (crsToWKT c) ∈ crsKeywords := by
  cases c <;> simp [crsToWKT, wktKeywordOf, crsKeywords]

theorem coordOpToWKT_kw_notCrs (op : CoordinateOperation) :
    wktKeywordOf (coordOpToWKT op) ∉ crsKeywords := by
  cases op <;> simp [coordOpToWKT, singleOpToWKT, wktKeywordOf, crsKeywords]

theorem coordOpToWKT_kw_op (op : CoordinateOperation) :
    wktKeywordOf (coordOpToWKT op) ∈ opKeywords := by
  cases op <;> simp [coordOpToWKT, singleOpToWKT, wktKeywordOf, opKeywords]

theorem objOfWKT_objToWKT2 (obj : IdentifiedObject) :
    objOfWKT (objToWKT2 obj) = some obj := by
  cases obj with
  | crs c =>
      simp [objToWKT2, objOfWKT, crsToWKT_kw c, crsOfWKT_crsToWKT c]
  | operation op =>
      simp [objToWKT2, objOfWKT, coordOpToWKT_kw_notCrs op,
        coordOpToWKT_kw_op op, coordOpOfWKT_coordOpToWKT op]
  | ellipsoid e =>
      have h : wktKeywordOf (ellipsoidToWKT e) = "ELLIPSOID" := rfl
      simp [objToWKT2, objOfWKT, h, crsKeywords, opKeywords,
        ellipsoidOfWKT_ellipsoidToWKT e]
  | primeMeridian p =>
      have h : wktKeywordOf (pmToWKT p) = "PRIMEM" := rfl
      simp [objToWKT2, objOfWKT, h, crsKeywords, opKeywords,
        pmOfWKT_pmToWKT p]
  | datum d =>
      have h : wktKeywordOf (datumToWKT d) ∈ datumKeywords := by
        cases d <;> simp [datumToWKT, wktKeywordOf, datumKeywords]
      have h2 : wktKeywordOf (datumToWKT d) ∉ crsKeywords := by
        cases d <;> simp [datumToWKT, wktKeywordOf, crsKeywords]
      have h3 : wktKeywordOf (datumToWKT d) ∉ opKeywords := by
        cases d <;> simp [datumToWKT, wktKeywordOf, opKeywords]
      have h4 : wktKeywordOf (datumToWKT d) ∉ (["ELLIPSOID", "SPHEROID"] : List String) := by
        cases d <;> simp [datumToWKT, wktKeywordOf]
      have h5 : wktKeywordOf (datumToWKT d) ≠ "PRIMEM" := by
        cases d <;> simp [datumToWKT, wktKeywordOf]
      simp [objToWKT2, objOfWKT, h, h2, h3, h4, h5, datumOfWKT_datumToWKT d]

theorem crsToWKT1_kw (c : CRS) (w : WKT) (h : crsToWKT1 c = some w) :
    wktKeywordOf w ∈ crsKeywords := by
  cases c with
  | geodetic m d cs =>
      cases d with
      | datum dd =>
          simp [crsToWKT1] at h
          subst h
          simp [wktKeywordOf, crsKeywords]
      | ensemble e => simp [crsToWKT1] at h
  | vertical m d cs =>
      cases d with
      | datum dd =>
          simp [crsToWKT1] at h
          subst h
          simp [wktKeywordOf, crsKeywords]
      | ensemble e => simp [crsToWKT1] at h
  | projected m b c cs =>
      simp only [crsToWKT1, Option.map_eq_some'] at h
      obtain ⟨bw, hb, rfl⟩ := h
      simp [wktKeywordOf, crsKeywords]
  | compound m comps =>
      simp only [crsToWKT1, Option.map_eq_some'] at h
      obtain ⟨cw, hc, rfl⟩ := h
      simp [wktKeywordOf, crsKeywords]
  | bound m b hub t => simp [crsToWKT1] at h
  | engineering m d cs =>
      simp [crsToWKT1] at h
      subst h
      simp [wktKeywordOf, crsKeywords]
  | temporal m cs => simp [crsToWKT1] at h

theorem objOfWKT_objToWKT1 (obj : IdentifiedObject) (w : WKT)
    (h : objToWKT1 obj = some w) : objOfWKT w = some obj.strip := by
  cases obj with
  | crs c =>
      simp only [objToWKT1] at h
      simp [objOfWKT, crsToWKT1_kw c w h, crsOfWKT_crsToWKT1 c w h,
        IdentifiedObject.strip]
  | operation op => simp [objToWKT1] at h
  | ellipsoid e =>
      simp only [objToWKT1, Option.some.injEq] at h
      subst h
      have hk : wktKeywordOf (ellipsoidToWKT1 e) = "SPHEROID" := rfl
      simp [objOfWKT, hk, crsKeywords, opKeywords,
        ellipsoidOfWKT_ellipsoidToWKT1 e, IdentifiedObject.strip]
  | primeMeridian p =>
      simp only [objToWKT1, Option.some.injEq] at h
      subst h
      have hk : wktKeywordOf (pmToWKT1 p) = "PRIMEM" := rfl
      simp [objOfWKT, hk, crsKeywords, opKeywords, pmOfWKT_pmToWKT1 p,
        IdentifiedObject.strip]
  | datum d =>
      simp only [objToWKT1, Option.some.injEq] at h
      subst h
      have h1 : wktKeywordOf (datumToWKT1 d) ∈ datumKeywords := by
        cases d <;> simp [datumToWKT1, wktKeywordOf, datumKeywords]
      have h2 : wktKeywordOf (datumToWKT1 d) ∉ crsKeywords := by
        cases d <;> simp [datumToWKT1, wktKeywordOf, crsKeywords]
      have h3 : wktKeywordOf (datumToWKT1 d) ∉ opKeywords := by
        cases d <;> simp [datumToWKT1, wktKeywordOf, opKeywords]
      have h4 : wktKeywordOf (datumToWKT1 d) ∉ (["ELLIPSOID", "SPHEROID"] : List String) := by
        cases d <;> simp [datumToWKT1, wktKeywordOf]
      have h5 : wktKeywordOf (datumToWKT1 d) ≠ "PRIMEM" := by
        cases d <;> simp [datumToWKT1, wktKeywordOf]
      simp [objOfWKT, h1, h2, h3, h4, h5, datumOfWKT_datumToWKT1 d,
        IdentifiedObject.strip]

/-! ## Resolver lemmas -/

theorem mem_filterByAccuracy (t : ℚ) (ops : List OpCandidate)
    (op : OpCandidate) :
    op ∈ filterByAccuracy t ops ↔
      op ∈ ops ∧ (t ≠ 0 → ∀ a, op.accuracy = some a → a ≤ t) := by
  unfold filterByAccuracy
  by_cases h : t = 0
  · simp [h]
  · rw [if_neg h, List.mem_filter]
    constructor
    · rintro ⟨hmem, hp⟩
      refine ⟨hmem, fun _ a ha => ?_⟩
      rw [ha] at hp
      simpa using hp
    · rintro ⟨hmem, hp⟩
      refine ⟨hmem, ?_⟩
      cases ha : op.accuracy with
      | none => simp
      | some a => simpa using hp h a ha

theorem mem_createOperations (cat : OperationCatalog) (source target : CRS)
    (ctx : CoordinateOperationContext) (op : OpCandidate) :
    op ∈ createOperations cat source target ctx ↔
      op ∈ filterByAccuracy ctx.desiredAccuracy
        (candidatePool cat ctx source target) := by
  unfold createOperations
  exact (List.perm_insertionSort opLE _).mem_iff

/-! ## Identification lemmas -/

theorem nameSimilarity_exact_iff (a b : String) :
    nameSimilarity a b = .exact ↔ a = b := by
  unfold nameSimilarity
  by_cases h : a = b
  · simp [h]
  · by_cases h2 : asciiUpper a = asciiUpper b <;> simp [h, h2]

theorem identifyConfidence_eq_100 (e : Bool) (s : NameSimilarity)
    (h : identifyConfidence e s = some 100) : e = true ∧ s = .exact := by
  cases e <;> cases s <;> simp_all [identifyConfidence]

theorem CRS.alterName_idem (c : CRS) (n : String) :
    (c.alterName n).alterName n = c.alterName n := by
  cases c <;> rfl

/-! ## Claim theorems -/

/-- C1: every result list returned by `proj_obj_create_operations` is
sorted by the ranking order `opLE`: operations of unknown accuracy after
every operation of known accuracy regardless of their area, then
descending area of overlap between operation validity and the area of
interest (unbounded/whole-world validity maximal), then ascending numeric
accuracy, then stable catalog order. -/
theorem claim_C1_ranking (source_crs target_crs : PJ_OBJ)
    (cat : OperationCatalog) (operationContext : CoordinateOperationContext)
    (l : List OpCandidate)
    (h : proj_obj_create_operations source_crs target_crs cat operationContext
      = some l) :
    List.Sorted opLE l := by
  cases hS : source_crs.obj <;> cases hT : target_crs.obj <;>
    simp only [proj_obj_create_operations, hS, hT, Option.some.injEq,
      reduceCtorEq] at h
  subst h
  unfold createOperations
  exact List.sorted_insertionSort opLE _

/-- Witness for C1 at a concrete catalog: the three cataloged operations
are returned with the known-accuracy ones first (larger overlap first) and
the unknown-accuracy one last. -/
theorem claim_C1_ranking_witness :
    List.Sorted opLE
      [{ overlap := none, accuracy := some 5, catalogIndex := 2 },
       { overlap := some 3, accuracy := some 1, catalogIndex := 3 },
       { overlap := some 10, accuracy := none, catalogIndex := 1 }] :=
  claim_C1_ranking (PJ_OBJ.create (.crs wgs84CRS))
    (PJ_OBJ.create (.crs mslVerticalCRS)) sampleCatalog {} _ (by decide)

/-- C2: with a non-zero desired-accuracy threshold, `createOperations`
returns exactly the candidates of the (spatially admissible) pool whose
accuracy is not strictly worse than the threshold — so operations of
unknown accuracy are never discarded by this rule — and with threshold 0
no accuracy filtering is applied at all. -/
theorem claim_C2_accuracy_filter (cat : OperationCatalog)
    (ctx : CoordinateOperationContext) (source target : CRS)
    (op : OpCandidate) :
    (ctx.desiredAccuracy ≠ 0 →
      (op ∈ createOperations cat source target ctx ↔
        op ∈ candidatePool cat ctx source target ∧
          ∀ a, op.accuracy = some a → a ≤ ctx.desiredAccuracy)) ∧
    (ctx.desiredAccuracy = 0 →
      (op ∈ createOperations cat source target ctx ↔
        op ∈ candidatePool cat ctx source target)) := by
  constructor
  · intro ht
    rw [mem_createOperations, mem_filterByAccuracy]
    constructor
    · rintro ⟨hmem, hp⟩
      exact ⟨hmem, hp ht⟩
    · rintro ⟨hmem, hp⟩
      exact ⟨hmem, fun _ => hp⟩
  · intro ht
    rw [mem_createOperations, mem_filterByAccuracy]
    simp [ht]

/-- Witness for C2 at threshold 2: an operation of accuracy 5 is
discarded, an operation of unknown accuracy is kept. -/
theorem claim_C2_accuracy_filter_witness :
    sampleOpAcc5 ∈ createOperations sampleCatalog wgs84CRS mslVerticalCRS
        { desiredAccuracy := 2 } ↔
      sampleOpAcc5 ∈ candidatePool sampleCatalog { desiredAccuracy := 2 }
          wgs84CRS mslVerticalCRS ∧
        ∀ a, sampleOpAcc5.accuracy = some a → a ≤ 2 :=
  (claim_C2_accuracy_filter sampleCatalog { desiredAccuracy := 2 } wgs84CRS
    mslVerticalCRS sampleOpAcc5).1 (by decide)

/-- C3: between two CRS with no admissible operation (no cataloged path,
no structural conversion, pivoting disabled), `proj_obj_create_operations`
returns the empty result set as a success (`some []`), not the error
result (`none`). -/
theorem claim_C3_empty_success (source target : CRS) (cat : OperationCatalog)
    (ctx : CoordinateOperationContext)
    (hdirect : cat.directOps source target = [])
    (hstruct : structuralOps source target = [])
    (hpivot : ctx.allowUseIntermediateCRS = false) :
    proj_obj_create_operations (PJ_OBJ.create (.crs source))
        (PJ_OBJ.create (.crs target)) cat ctx = some [] ∧
      proj_obj_create_operations (PJ_OBJ.create (.crs source))
        (PJ_OBJ.create (.crs target)) cat ctx ≠ none := by
  have h : proj_obj_create_operations (PJ_OBJ.create (.crs source))
      (PJ_OBJ.create (.crs target)) cat ctx = some [] := by
    simp [proj_obj_create_operations, PJ_OBJ.create, createOperations,
      candidatePool, hdirect, hstruct, hpivot, filterByAccuracy,
      List.insertionSort]
  exact ⟨h, by simp [h]⟩

/-- Witness for C3: the empty catalog, two structurally unrelated CRS and
pivoting disabled. -/
theorem claim_C3_empty_success_witness :
    proj_obj_create_operations (PJ_OBJ.create (.crs wgs84CRS))
        (PJ_OBJ.create (.crs mslVerticalCRS)) emptyCatalog
        { allowUseIntermediateCRS := false } = some [] ∧
      proj_obj_create_operations (PJ_OBJ.create (.crs wgs84CRS))
        (PJ_OBJ.create (.crs mslVerticalCRS)) emptyCatalog
        { allowUseIntermediateCRS := false } ≠ none :=
  claim_C3_empty_success wgs84CRS mslVerticalCRS emptyCatalog
    { allowUseIntermediateCRS := false } rfl (by decide) rfl

/-- C4: identification assigns confidence by the documented table (100
exactly for equivalent CRS with exactly matching names, 90/70 for
equivalent CRS with similar/unrelated names, 25 for non-equivalent CRS
with similar names, exclusion otherwise); a 100-confidence match
short-circuits to a single result; identifying a CRS against itself gives
exactly one result of confidence 100; identifying against a structurally
different, unrelated CRS gives no result; and the C API wrapper returns
these matches for a CRS argument. -/
theorem identify_found (crs : CRS) (pool : List CRS) (r0 : CRS)
    (hf : pool.find? (fun r =>
      crsEquiv .equivalent crs r && decide (crs.name = r.name)) = some r0) :
    identify crs pool = [(r0, 100)] := by
  unfold identify
  rw [hf]

theorem identify_not_found (crs : CRS) (pool : List CRS)
    (hf : pool.find? (fun r =>
      crsEquiv .equivalent crs r && decide (crs.name = r.name)) = none) :
    identify crs pool = pool.filterMap (fun r =>
      (identifyConfidence (crsEquiv .equivalent crs r)
        (nameSimilarity crs.name r.name)).map (fun conf => (r, conf))) := by
  unfold identify
  rw [hf]

theorem claim_C4_identify_confidence (crs : CRS) (pool : List CRS) :
    (∀ r conf, (r, conf) ∈ identify crs pool →
      identifyConfidence (crsEquiv .equivalent crs r)
        (nameSimilarity crs.name r.name) = some conf) ∧
    (∀ r, (r, 100) ∈ identify crs pool → identify crs pool = [(r, 100)]) ∧
    identify crs [crs] = [(crs, 100)] ∧
    (∀ r, crsEquiv .equivalent crs r = false →
      nameSimilarity crs.name r.name = .unrelated → identify crs [r] = []) ∧
    proj_obj_identify (PJ_OBJ.create (.crs crs)) pool =
      some (identify crs pool) := by
  refine ⟨?_, ?_, ?_, ?_, rfl⟩
  · intro r conf hmem
    cases hf : pool.find? (fun r =>
        crsEquiv .equivalent crs r && decide (crs.name = r.name)) with
    | some r0 =>
        rw [identify_found crs pool r0 hf] at hmem
        simp only [List.mem_singleton, Prod.mk.injEq] at hmem
        obtain ⟨rfl, rfl⟩ := hmem
        have hp := List.find?_some hf
        simp only [Bool.and_eq_true, decide_eq_true_eq] at hp
        rw [hp.1, (nameSimilarity_exact_iff _ _).2 hp.2]
        rfl
    | none =>
        rw [identify_not_found crs pool hf] at hmem
        simp only [List.mem_filterMap, Option.map_eq_some'] at hmem
        obtain ⟨r', hr', conf', hconf, heq⟩ := hmem
        injection heq with h1 h2
        subst h1
        subst h2
        exact hconf
  · intro r hmem
    cases hf : pool.find? (fun r =>
        crsEquiv .equivalent crs r && decide (crs.name = r.name)) with
    | some r0 =>
        rw [identify_found crs pool r0 hf] at hmem ⊢
        simp only [List.mem_singleton, Prod.mk.injEq] at hmem
        rw [hmem.1]
    | none =>
        rw [identify_not_found crs pool hf] at hmem
        exfalso
        simp only [List.mem_filterMap, Option.map_eq_some'] at hmem
        obtain ⟨r', hr', conf', hconf, heq⟩ := hmem
        injection heq with h1 h2
        subst h1
        subst h2
        obtain ⟨he, hs⟩ := identifyConfidence_eq_100 _ _ hconf
        have hnone := List.find?_eq_none.mp hf r' hr'
        exact hnone (by
          simp [he, (nameSimilarity_exact_iff _ _).1 hs])
  · have hf : [crs].find? (fun r =>
        crsEquiv .equivalent crs r && decide (crs.name = r.name))
        = some crs := by
      simp [List.find?_cons, crsEquiv_refl]
    rw [identify_found crs [crs] crs hf]
  · intro r hequiv hsim
    have hf : [r].find? (fun x =>
        crsEquiv .equivalent crs x && decide (crs.name = x.name)) = none := by
      simp [List.find?_cons, hequiv]
    rw [identify_not_found crs [r] hf]
    simp [List.filterMap_cons, hequiv, hsim, identifyConfidence]

/-- Witness for C4: a CRS identified against itself gives exactly one
result of confidence 100; identified against an unrelated vertical CRS it
gives no result. -/
theorem claim_C4_identify_confidence_witness :
    identify wgs84CRS [wgs84CRS] = [(wgs84CRS, 100)] ∧
      identify wgs84CRS [mslVerticalCRS] = [] :=
  ⟨(claim_C4_identify_confidence wgs84CRS [wgs84CRS]).2.2.1,
   (claim_C4_identify_confidence wgs84CRS [mslVerticalCRS]).2.2.2.1
     mslVerticalCRS (by decide) (by decide)⟩

/-- C5: for every object and every convention that supports its variant
(i.e. `proj_obj_as_wkt` does not fail with the FormattingNotSupported
result), parsing the serialization with `proj_obj_create_from_wkt` yields
an object Equivalent to the original. -/
theorem claim_C5_roundtrip (pj : PJ_OBJ) (convention : Convention) (w : WKT)
    (h : proj_obj_as_wkt pj convention = some w) :
    ∃ pj2, proj_obj_create_from_wkt w = some pj2 ∧
      proj_obj_is_equivalent_to pj2 pj .equivalent = true := by
  cases convention with
  | wkt2 =>
      simp only [proj_obj_as_wkt, format, Option.some.injEq] at h
      subst h
      exact ⟨PJ_OBJ.create pj.obj,
        by simp [proj_obj_create_from_wkt, parse, objOfWKT_objToWKT2],
        by simp [proj_obj_is_equivalent_to, PJ_OBJ.create, objEquiv_refl]⟩
  | wkt1 =>
      simp only [proj_obj_as_wkt, format] at h
      exact ⟨PJ_OBJ.create pj.obj.strip,
        by simp [proj_obj_create_from_wkt, parse, objOfWKT_objToWKT1 _ _ h],
        by simp [proj_obj_is_equivalent_to, PJ_OBJ.create, objEquiv_strip]⟩

/-- Witness for C5: round-trip of the Greenwich prime meridian through the
modern convention. -/
theorem claim_C5_roundtrip_witness :
    ∃ pj2, proj_obj_create_from_wkt
        (objToWKT2 (.primeMeridian greenwichPM)) = some pj2 ∧
      proj_obj_is_equivalent_to pj2
        (PJ_OBJ.create (.primeMeridian greenwichPM)) .equivalent = true :=
  claim_C5_roundtrip (PJ_OBJ.create (.primeMeridian greenwichPM)) .wkt2
    (objToWKT2 (.primeMeridian greenwichPM)) rfl

/-- C6: for each of the three comparison criteria,
`proj_obj_is_equivalent_to` is an equivalence relation: reflexive,
symmetric and transitive. -/
theorem claim_C6_equivalence_relation (criterion : Criterion) :
    (∀ a : PJ_OBJ, proj_obj_is_equivalent_to a a criterion = true) ∧
    (∀ a b : PJ_OBJ, proj_obj_is_equivalent_to a b criterion = true →
      proj_obj_is_equivalent_to b a criterion = true) ∧
    (∀ a b c : PJ_OBJ, proj_obj_is_equivalent_to a b criterion = true →
      proj_obj_is_equivalent_to b c criterion = true →
      proj_obj_is_equivalent_to a c criterion = true) :=
  ⟨fun a => objEquiv_refl criterion a.obj,
   fun _ _ h => objEquiv_symm criterion _ _ h,
   fun _ _ _ h₁ h₂ => objEquiv_trans criterion _ _ _ h₁ h₂⟩

/-- Witness for C6: symmetry and transitivity applied to concrete
equivalent CRS (renamed copies of the same geographic CRS, equivalent
because the Equivalent criterion ignores metadata). -/
theorem claim_C6_equivalence_relation_witness :
    proj_obj_is_equivalent_to (PJ_OBJ.create (.crs (wgs84CRS.alterName "B")))
        (PJ_OBJ.create (.crs wgs84CRS)) .equivalent = true ∧
      proj_obj_is_equivalent_to (PJ_OBJ.create (.crs wgs84CRS))
        (PJ_OBJ.create (.crs (wgs84CRS.alterName "C"))) .equivalent = true :=
  ⟨(claim_C6_equivalence_relation .equivalent).2.1 _ _ (by decide),
   (claim_C6_equivalence_relation .equivalent).2.2 _
     (PJ_OBJ.create (.crs (wgs84CRS.alterName "B"))) _ (by decide) (by decide)⟩

/-- C7: `proj_context_guess_wkt_dialect` always returns one of the five
dialect tags, and its result depends only on the leading structure of the
input (the first keyword token and the first quoted name) — it never
performs a full parse and never signals an error. -/
theorem claim_C7_guess_dialect :
    (∀ wkt : String,
      proj_context_guess_wkt_dialect wkt = .PJ_GUESSED_WKT2_2018 ∨
      proj_context_guess_wkt_dialect wkt = .PJ_GUESSED_WKT2_2015 ∨
      proj_context_guess_wkt_dialect wkt = .PJ_GUESSED_WKT1_GDAL ∨
      proj_context_guess_wkt_dialect wkt = .PJ_GUESSED_WKT1_ESRI ∨
      proj_context_guess_wkt_dialect wkt = .PJ_GUESSED_NOT_WKT) ∧
    (∀ s₁ s₂ : String, firstToken s₁ = firstToken s₂ →
      firstQuoted s₁ = firstQuoted s₂ →
      proj_context_guess_wkt_dialect s₁ = proj_context_guess_wkt_dialect s₂) := by
  constructor
  · intro wkt
    cases h : guessDialect wkt <;>
      simp [proj_context_guess_wkt_dialect, h]
  · intro s₁ s₂ h₁ h₂
    unfold proj_context_guess_wkt_dialect guessDialect
    rw [h₁, h₂]

/-- Witness for C7: two texts with the same leading keyword and first
quoted name but different trailing content are classified identically. -/
theorem claim_C7_guess_dialect_witness :
    proj_context_guess_wkt_dialect "GEOGCRS[\"WGS 84\"]" =
      proj_context_guess_wkt_dialect "GEOGCRS  [\"WGS 84\", 1]" :=
  claim_C7_guess_dialect.2 "GEOGCRS[\"WGS 84\"]" "GEOGCRS  [\"WGS 84\", 1]"
    (by decide) (by decide)

/-- C8: on a fresh `PJ_OBJ` wrapping a coordinate operation, the first
call to `proj_coordoperation_get_grid_used_count` queries the
grids-needed collaborator exactly once and stores the result; every later
call (including through `proj_coordoperation_get_grid_used`) returns the
stored result with zero collaborator queries and leaves the state
unchanged; and the caching never modifies the wrapped object or the other
cache field. -/
theorem claim_C8_grids_cache
    (gridsOf : CoordinateOperation → List GridDescription) (pj : PJ_OBJ)
    (co : CoordinateOperation) (hobj : pj.obj = .operation co)
    (hasked : pj.gridsNeededAsked = false) (hgrids : pj.gridsNeeded = []) :
    proj_coordoperation_get_grid_used_count gridsOf pj =
      (((gridsOf co).length : ℤ),
        { pj with gridsNeededAsked := true, gridsNeeded := gridsOf co }, 1) ∧
    proj_coordoperation_get_grid_used_count gridsOf
        { pj with gridsNeededAsked := true, gridsNeeded := gridsOf co } =
      (((gridsOf co).length : ℤ),
        { pj with gridsNeededAsked := true, gridsNeeded := gridsOf co }, 0) ∧
    (∀ index : ℤ,
      (proj_coordoperation_get_grid_used gridsOf
        { pj with gridsNeededAsked := true, gridsNeeded := gridsOf co }
        index).2 =
      ({ pj with gridsNeededAsked := true, gridsNeeded := gridsOf co },
        0)) ∧
    ({ pj with gridsNeededAsked := true, gridsNeeded := gridsOf co } : PJ_OBJ).obj = pj.obj ∧
    ({ pj with gridsNeededAsked := true, gridsNeeded := gridsOf co } : PJ_OBJ).lastWKT = pj.lastWKT := by
  refine ⟨?_, ?_, ?_, rfl, rfl⟩
  · simp [proj_coordoperation_get_grid_used_count, hobj, hasked, hgrids]
  · simp [proj_coordoperation_get_grid_used_count, hobj]
  · intro index
    have hc : proj_coordoperation_get_grid_used_count gridsOf
        { pj with gridsNeededAsked := true, gridsNeeded := gridsOf co } =
        (((gridsOf co).length : ℤ),
          { pj with gridsNeededAsked := true, gridsNeeded := gridsOf co }, 0) := by
      simp [proj_coordoperation_get_grid_used_count, hobj]
    simp only [proj_coordoperation_get_grid_used, hc]
    split <;> rfl

/-- Witness for C8: the first call on a fresh wrapper of a sample
transformation performs one collaborator query and stores the fetched
grid list. -/
theorem claim_C8_grids_cache_witness :
    proj_coordoperation_get_grid_used_count (fun _ => [sampleGrid])
      (PJ_OBJ.create (.operation sampleTransformation)) =
    ((([sampleGrid] : List GridDescription).length : ℤ),
      { PJ_OBJ.create (.operation sampleTransformation) with gridsNeededAsked := true, gridsNeeded := [sampleGrid] }, 1) :=
  (claim_C8_grids_cache (fun _ => [sampleGrid])
    (PJ_OBJ.create (.operation sampleTransformation)) sampleTransformation
    rfl rfl rfl).1

/-- C9: name alteration through the C API is idempotent — altering the
name of an already-altered object with the same name yields an object that
is Strict-equivalent to the singly-altered one. -/
theorem claim_C9_alter_name_idempotent (pj : PJ_OBJ) (name : String)
    (r : PJ_OBJ) (h : proj_obj_alter_name pj name = some r) :
    ∃ r₂, proj_obj_alter_name r name = some r₂ ∧
      proj_obj_is_equivalent_to r₂ r .strict = true := by
  cases hobj : pj.obj <;>
    simp only [proj_obj_alter_name, hobj, Option.some.injEq,
      reduceCtorEq] at h
  case crs c =>
    subst h
    refine ⟨PJ_OBJ.create (.crs ((c.alterName name).alterName name)), rfl, ?_⟩
    rw [CRS.alterName_idem]
    simp [proj_obj_is_equivalent_to, PJ_OBJ.create, objEquiv, crsEquiv_refl]

/-- Witness for C9 on the sample geographic CRS. -/
theorem claim_C9_alter_name_idempotent_witness :
    ∃ r₂, proj_obj_alter_name
        (PJ_OBJ.create (.crs (wgs84CRS.alterName "X"))) "X" = some r₂ ∧
      proj_obj_is_equivalent_to r₂
        (PJ_OBJ.create (.crs (wgs84CRS.alterName "X"))) .strict = true :=
  claim_C9_alter_name_idempotent (PJ_OBJ.create (.crs wgs84CRS)) "X"
    (PJ_OBJ.create (.crs (wgs84CRS.alterName "X"))) rfl

/-- Counterexample to C10 as stated: an operation whose first accuracy
claim is the string "-1" parses successfully, so
`proj_coordoperation_get_accuracy` returns -1 (the parsed value) even
though the object is a coordinate operation, the accuracy list is
non-empty and the first value parses — the "exactly when unknown"
biconditional fails. -/
theorem claim_C10_counterexample :
    proj_coordoperation_get_accuracy
        (PJ_OBJ.create (.operation (.transformation
          ⟨nameOnlyMeta "T", "method", []⟩ ["-1"]))) = -1 ∧
      (PJ_OBJ.create (.operation (.transformation
          ⟨nameOnlyMeta "T", "method", []⟩ ["-1"]))).obj =
        .operation (.transformation ⟨nameOnlyMeta "T", "method", []⟩
          ["-1"]) ∧
      (CoordinateOperation.transformation ⟨nameOnlyMeta "T", "method", []⟩
          ["-1"]).coordinateOperationAccuracies = ["-1"] ∧
      c_locale_stod "-1" = some (-1) := by
  refine ⟨by decide, rfl, rfl, by decide⟩

/-- C10 (amended): `proj_coordoperation_get_accuracy` returns -1 when the
object is not a coordinate operation, when its accuracy list is empty, or
when the first accuracy value does not parse as a number; otherwise it
returns the numeric value of the first accuracy claim (which may itself be
negative, so a -1 return does not exclusively indicate an unknown
accuracy). -/
theorem claim_C10_accuracy (pj : PJ_OBJ) :
    (∀ co, pj.obj = .operation co →
      (co.coordinateOperationAccuracies = [] →
        proj_coordoperation_get_accuracy pj = -1) ∧
      (∀ a rest, co.coordinateOperationAccuracies = a :: rest →
        (∀ v, c_locale_stod a = some v →
          proj_coordoperation_get_accuracy pj = v) ∧
        (c_locale_stod a = none →
          proj_coordoperation_get_accuracy pj = -1))) ∧
    ((∀ co, pj.obj ≠ .operation co) →
      proj_coordoperation_get_accuracy pj = -1) := by
  constructor
  · intro co hco
    constructor
    · intro hacc
      simp [proj_coordoperation_get_accuracy, hco, hacc]
    · intro a rest hacc
      constructor
      · intro v hv
        simp [proj_coordoperation_get_accuracy, hco, hacc, hv]
      · intro hv
        simp [proj_coordoperation_get_accuracy, hco, hacc, hv]
  · intro hne
    cases hobj : pj.obj with
    | operation op => exact absurd hobj (hne op)
    | crs c => simp [proj_coordoperation_get_accuracy, hobj]
    | ellipsoid e => simp [proj_coordoperation_get_accuracy, hobj]
    | primeMeridian p => simp [proj_coordoperation_get_accuracy, hobj]
    | datum d => simp [proj_coordoperation_get_accuracy, hobj]

/-- Witness for the amended C10: the sample transformation's first
accuracy claim "2.5" parses and is returned. -/
theorem claim_C10_accuracy_witness :
    proj_coordoperation_get_accuracy
      (PJ_OBJ.create (.operation sampleTransformation)) = mkRat 5 2 :=
  (((claim_C10_accuracy
      (PJ_OBJ.create (.operation sampleTransformation))).1
    sampleTransformation rfl).2 "2.5" [] rfl).1 (mkRat 5 2) (by decide)
